import Mathlib

/-!
Verification of the core renderer of a Rust ray tracer.

The Rust source is shallowly embedded: `f64` values are modelled as
rationals (ℚ); the transcendental operations of `f64` (`sqrt`, `cos`,
`sin`, `powf`) have no rational counterpart and are modelled as an
oracle bundle `FOps` that is threaded through the definitions, with
theorems assuming only the particular oracle values they need
(e.g. `F.sqrt 1 = 1`, `F.cos 0 = 1`).  Rust `panic!` branches are
modelled by `Option` (`none` = abort).  Rust's stable in-place sort
(`sort_by` over `partial_cmp` on the `t` value) is modelled by a stable
insertion sort: a stable sort by a total key is a unique function of
its input, so any stable sort is an exact model.
-/

namespace RayTracer

/-- Oracle for the `f64` operations that have no rational counterpart.
Each field stands for the corresponding `f64` intrinsic. -/
structure FOps where
  sqrt : ℚ → ℚ
  cos : ℚ → ℚ
  sin : ℚ → ℚ
  powf : ℚ → ℚ → ℚ

/-- Modelled from the spec: the repository's `utils` module (not under
`src/`) defines the global tolerance `EPSILON`; the spec fixes it as
1e-5 ("epsilon (1e-5) tolerance"), matching the literal `0.00001` used
by the `PartialEq` impls and `is_invertible` in the sources present. -/
def eps : ℚ := 1 / 100000

/-- Modelled from the spec: `utils::ApproxEq::approx_eq` (module missing
from `src/`): equality of `f64` values up to the 1e-5 tolerance. -/
def approxEq (a b : ℚ) : Bool := |a - b| ≤ eps

/-- `f64::MAX`. -/
def f64MAX : ℚ := 17976931348623157 * 10 ^ 292

/-- `f64::MIN`. -/
def f64MIN : ℚ := -f64MAX

/-! ## Colors (`surfaces/colors.rs`) -/

/-- `Color { red, green, blue }`. -/
structure Color where
  red : ℚ
  green : ℚ
  blue : ℚ
deriving DecidableEq, Repr

/-- `color(red, green, blue)`. -/
def color (red green blue : ℚ) : Color := ⟨red, green, blue⟩

/-- `black()`. -/
def black : Color := ⟨0, 0, 0⟩

/-- `white()`. -/
def white : Color := ⟨1, 1, 1⟩

/-- `impl Add for Color`. -/
def Color.add (a b : Color) : Color :=
  color (a.red + b.red) (a.green + b.green) (a.blue + b.blue)

/-- `impl Sub for Color`. -/
def Color.sub (a b : Color) : Color :=
  color (a.red - b.red) (a.green - b.green) (a.blue - b.blue)

/-- `impl Mul<Color> for Color` (Hadamard product). -/
def Color.mulC (a b : Color) : Color :=
  color (a.red * b.red) (a.green * b.green) (a.blue * b.blue)

/-- `impl Mul<f64> for Color` (channel-wise scaling). -/
def Color.scale (a : Color) (s : ℚ) : Color :=
  color (a.red * s) (a.green * s) (a.blue * s)

/-- `impl PartialEq for Color`: channel-wise comparison up to `eps`. -/
def Color.peq (a b : Color) : Bool :=
  approxEq a.red b.red && approxEq a.green b.green && approxEq a.blue b.blue

/-! ## Tuples (`matrices/tuples.rs`) -/

/-- `Tuple { x, y, z, v }` with `v : i8` (1 = point, 0 = vector). -/
structure Tuple where
  x : ℚ
  y : ℚ
  z : ℚ
  v : ℤ
deriving DecidableEq, Repr

/-- `point(x, y, z)`. -/
def point (x y z : ℚ) : Tuple := ⟨x, y, z, 1⟩

/-- `vector(x, y, z)`. -/
def vector (x y z : ℚ) : Tuple := ⟨x, y, z, 0⟩

/-- `origin()`. -/
def origin : Tuple := point 0 0 0

/-- The free function `tuple(x, y, z, v)`: builds a point when `v = 1`,
a vector when `v = 0`, and panics otherwise (modelled as `none`). -/
def tupleCtor (x y z : ℚ) (v : ℤ) : Option Tuple :=
  if v = 1 then some (point x y z)
  else if v = 0 then some (vector x y z)
  else none

/-- `impl Add for Tuple`: goes through the checked `tuple` constructor,
so it can panic (`none`) when the resulting `v` is outside {0, 1}. -/
def Tuple.checkedAdd (a b : Tuple) : Option Tuple :=
  tupleCtor (a.x + b.x) (a.y + b.y) (a.z + b.z) (a.v + b.v)

/-- `impl Sub for Tuple`: goes through the checked `tuple` constructor,
so it can panic (`none`) when the resulting `v` is outside {0, 1}. -/
def Tuple.checkedSub (a b : Tuple) : Option Tuple :=
  tupleCtor (a.x - b.x) (a.y - b.y) (a.z - b.z) (a.v - b.v)

/-- Total projection of `impl Add for Tuple` used on the renderer's hot
path, where the operands are always a valid point/vector combination
(see `tuple_checkedAdd_eq_add`). -/
def Tuple.add (a b : Tuple) : Tuple :=
  ⟨a.x + b.x, a.y + b.y, a.z + b.z, a.v + b.v⟩

/-- Total projection of `impl Sub for Tuple` (see
`tuple_checkedSub_eq_sub`). -/
def Tuple.sub (a b : Tuple) : Tuple :=
  ⟨a.x - b.x, a.y - b.y, a.z - b.z, a.v - b.v⟩

/-- `impl Neg for Tuple` (vector-only in the source; on the renderer's
path it is only ever applied to vectors, where `-v = v = 0`). -/
def Tuple.neg (a : Tuple) : Tuple := ⟨-a.x, -a.y, -a.z, -a.v⟩

/-- `impl Mul<f64> for Tuple`: scales a vector (vector-only; returns a
vector). -/
def Tuple.scale (a : Tuple) (s : ℚ) : Tuple := vector (a.x * s) (a.y * s) (a.z * s)

/-- `impl Mul<Tuple> for Tuple`: dot product (vector-only). -/
def Tuple.dot (a b : Tuple) : ℚ := a.x * b.x + a.y * b.y + a.z * b.z

/-- `impl Div<f64> for Tuple`: scalar division of a vector. -/
def Tuple.divScalar (a : Tuple) (s : ℚ) : Tuple := vector (a.x / s) (a.y / s) (a.z / s)

/-- `Tuple::vectorize`. -/
def Tuple.vectorize (a : Tuple) : Tuple := ⟨a.x, a.y, a.z, 0⟩

/-- `Tuple::is_vector`. -/
def Tuple.isVector (a : Tuple) : Bool := a.v = 0

/-- `Tuple::magnitude` (vector-only): `sqrt(x² + y² + z² + (v as f64)²)`. -/
def Tuple.magnitude (F : FOps) (a : Tuple) : ℚ :=
  F.sqrt (a.x ^ 2 + a.y ^ 2 + a.z ^ 2 + (a.v : ℚ) ^ 2)

/-- `Tuple::normalize` (vector-only). -/
def Tuple.normalize (F : FOps) (a : Tuple) : Tuple :=
  vector (a.x / a.magnitude F) (a.y / a.magnitude F) (a.z / a.magnitude F)

/-- `Tuple::xprod`: cross product (vector-only). -/
def Tuple.xprod (a b : Tuple) : Tuple :=
  vector (a.y * b.z - a.z * b.y) (a.z * b.x - a.x * b.z) (a.x * b.y - a.y * b.x)

/-- `Tuple::reflect_vector`. -/
def Tuple.reflectVector (a normal : Tuple) : Tuple :=
  a.sub (normal.scale (2 * a.dot normal))

/-- `impl PartialEq for Tuple`: coordinates up to `eps`, `v` exact. -/
def Tuple.peq (a b : Tuple) : Bool :=
  approxEq a.x b.x && approxEq a.y b.y && approxEq a.z b.z && a.v = b.v

/-! ## 4×4 matrices (`matrices/matrix4.rs`, `matrix3.rs`, `matrix2.rs`)

The source computes minors/cofactors by extracting submatrices with
index loops; here the same first-column cofactor expansions appear with
the loops unrolled over the sixteen named entries. -/

/-- `Matrix4`, entry `mRC` = row R, column C. -/
structure Matrix4 where
  m00 : ℚ
  m01 : ℚ
  m02 : ℚ
  m03 : ℚ
  m10 : ℚ
  m11 : ℚ
  m12 : ℚ
  m13 : ℚ
  m20 : ℚ
  m21 : ℚ
  m22 : ℚ
  m23 : ℚ
  m30 : ℚ
  m31 : ℚ
  m32 : ℚ
  m33 : ℚ
deriving DecidableEq, Repr

/-- `Matrix2::determinant`, entries row-major. -/
def det2 (a b c d : ℚ) : ℚ := a * d - b * c

/-- `Matrix3::determinant` (first-column cofactor expansion, as in the
source's loop), entries row-major. -/
def det3 (a b c d e f g h i : ℚ) : ℚ :=
  a * det2 e f h i - d * det2 b c h i + g * det2 b c e f

/-- `Matrix4::minor(row, col)`: determinant of the 3×3 submatrix with
`row` and `col` removed (out-of-range indices never occur; junk 0). -/
def Matrix4.minor (M : Matrix4) (r c : Nat) : ℚ :=
  if r = 0 then
    if c = 0 then det3 M.m11 M.m12 M.m13 M.m21 M.m22 M.m23 M.m31 M.m32 M.m33
    else if c = 1 then det3 M.m10 M.m12 M.m13 M.m20 M.m22 M.m23 M.m30 M.m32 M.m33
    else if c = 2 then det3 M.m10 M.m11 M.m13 M.m20 M.m21 M.m23 M.m30 M.m31 M.m33
    else det3 M.m10 M.m11 M.m12 M.m20 M.m21 M.m22 M.m30 M.m31 M.m32
  else if r = 1 then
    if c = 0 then det3 M.m01 M.m02 M.m03 M.m21 M.m22 M.m23 M.m31 M.m32 M.m33
    else if c = 1 then det3 M.m00 M.m02 M.m03 M.m20 M.m22 M.m23 M.m30 M.m32 M.m33
    else if c = 2 then det3 M.m00 M.m01 M.m03 M.m20 M.m21 M.m23 M.m30 M.m31 M.m33
    else det3 M.m00 M.m01 M.m02 M.m20 M.m21 M.m22 M.m30 M.m31 M.m32
  else if r = 2 then
    if c = 0 then det3 M.m01 M.m02 M.m03 M.m11 M.m12 M.m13 M.m31 M.m32 M.m33
    else if c = 1 then det3 M.m00 M.m02 M.m03 M.m10 M.m12 M.m13 M.m30 M.m32 M.m33
    else if c = 2 then det3 M.m00 M.m01 M.m03 M.m10 M.m11 M.m13 M.m30 M.m31 M.m33
    else det3 M.m00 M.m01 M.m02 M.m10 M.m11 M.m12 M.m30 M.m31 M.m32
  else
    if c = 0 then det3 M.m01 M.m02 M.m03 M.m11 M.m12 M.m13 M.m21 M.m22 M.m23
    else if c = 1 then det3 M.m00 M.m02 M.m03 M.m10 M.m12 M.m13 M.m20 M.m22 M.m23
    else if c = 2 then det3 M.m00 M.m01 M.m03 M.m10 M.m11 M.m13 M.m20 M.m21 M.m23
    else det3 M.m00 M.m01 M.m02 M.m10 M.m11 M.m12 M.m20 M.m21 M.m22

/-- `Matrix4::cofactor(row, col)`. -/
def Matrix4.cofactor (M : Matrix4) (row col : Nat) : ℚ :=
  if (row + col) % 2 = 1 then -(M.minor row col) else M.minor row col

/-- `Matrix4::determinant`: first-column cofactor expansion. -/
def Matrix4.determinant (M : Matrix4) : ℚ :=
  M.m00 * M.cofactor 0 0 + M.m10 * M.cofactor 1 0 +
    M.m20 * M.cofactor 2 0 + M.m30 * M.cofactor 3 0

/-- `Matrix4::is_invertible`: `|det| > 0.00001`. -/
def Matrix4.isInvertible (M : Matrix4) : Bool := |M.determinant| > eps

/-- `Matrix4::invert`: panics (`none`) when `is_invertible` fails;
otherwise writes `cofactor(i, j) / det` into entry `(j, i)`. -/
def Matrix4.invert (M : Matrix4) : Option Matrix4 :=
  if ¬ M.isInvertible then none
  else
    let d := M.determinant
    some
      { m00 := M.cofactor 0 0 / d, m01 := M.cofactor 1 0 / d
        m02 := M.cofactor 2 0 / d, m03 := M.cofactor 3 0 / d
        m10 := M.cofactor 0 1 / d, m11 := M.cofactor 1 1 / d
        m12 := M.cofactor 2 1 / d, m13 := M.cofactor 3 1 / d
        m20 := M.cofactor 0 2 / d, m21 := M.cofactor 1 2 / d
        m22 := M.cofactor 2 2 / d, m23 := M.cofactor 3 2 / d
        m30 := M.cofactor 0 3 / d, m31 := M.cofactor 1 3 / d
        m32 := M.cofactor 2 3 / d, m33 := M.cofactor 3 3 / d }

/-- `Matrix4::identity`. -/
def Matrix4.identity : Matrix4 :=
  ⟨1, 0, 0, 0, 0, 1, 0, 0, 0, 0, 1, 0, 0, 0, 0, 1⟩

/-- `Matrix4::transpose`. -/
def Matrix4.transpose (M : Matrix4) : Matrix4 :=
  ⟨M.m00, M.m10, M.m20, M.m30,
   M.m01, M.m11, M.m21, M.m31,
   M.m02, M.m12, M.m22, M.m32,
   M.m03, M.m13, M.m23, M.m33⟩

/-- Dot product of a row with a column. -/
def dot4 (a b c d e f g h : ℚ) : ℚ := a * e + b * f + c * g + d * h

/-- `impl Mul<Matrix4> for Matrix4`. -/
def Matrix4.mul (A B : Matrix4) : Matrix4 :=
  { m00 := dot4 A.m00 A.m01 A.m02 A.m03 B.m00 B.m10 B.m20 B.m30
    m01 := dot4 A.m00 A.m01 A.m02 A.m03 B.m01 B.m11 B.m21 B.m31
    m02 := dot4 A.m00 A.m01 A.m02 A.m03 B.m02 B.m12 B.m22 B.m32
    m03 := dot4 A.m00 A.m01 A.m02 A.m03 B.m03 B.m13 B.m23 B.m33
    m10 := dot4 A.m10 A.m11 A.m12 A.m13 B.m00 B.m10 B.m20 B.m30
    m11 := dot4 A.m10 A.m11 A.m12 A.m13 B.m01 B.m11 B.m21 B.m31
    m12 := dot4 A.m10 A.m11 A.m12 A.m13 B.m02 B.m12 B.m22 B.m32
    m13 := dot4 A.m10 A.m11 A.m12 A.m13 B.m03 B.m13 B.m23 B.m33
    m20 := dot4 A.m20 A.m21 A.m22 A.m23 B.m00 B.m10 B.m20 B.m30
    m21 := dot4 A.m20 A.m21 A.m22 A.m23 B.m01 B.m11 B.m21 B.m31
    m22 := dot4 A.m20 A.m21 A.m22 A.m23 B.m02 B.m12 B.m22 B.m32
    m23 := dot4 A.m20 A.m21 A.m22 A.m23 B.m03 B.m13 B.m23 B.m33
    m30 := dot4 A.m30 A.m31 A.m32 A.m33 B.m00 B.m10 B.m20 B.m30
    m31 := dot4 A.m30 A.m31 A.m32 A.m33 B.m01 B.m11 B.m21 B.m31
    m32 := dot4 A.m30 A.m31 A.m32 A.m33 B.m02 B.m12 B.m22 B.m32
    m33 := dot4 A.m30 A.m31 A.m32 A.m33 B.m03 B.m13 B.m23 B.m33 }

/-- `impl Mul<Tuple> for Matrix4`: the result re-tags the tuple with the
operand's own point/vector kind (the fourth row product is dropped). -/
def Matrix4.mulT (M : Matrix4) (t : Tuple) : Tuple :=
  let r0 := dot4 M.m00 M.m01 M.m02 M.m03 t.x t.y t.z (t.v : ℚ)
  let r1 := dot4 M.m10 M.m11 M.m12 M.m13 t.x t.y t.z (t.v : ℚ)
  let r2 := dot4 M.m20 M.m21 M.m22 M.m23 t.x t.y t.z (t.v : ℚ)
  if t.isVector then vector r0 r1 r2 else point r0 r1 r2

/-- `impl PartialEq for Matrix4`: entrywise comparison up to `eps`. -/
def Matrix4.peq (A B : Matrix4) : Bool :=
  approxEq A.m00 B.m00 && approxEq A.m01 B.m01 && approxEq A.m02 B.m02 &&
  approxEq A.m03 B.m03 && approxEq A.m10 B.m10 && approxEq A.m11 B.m11 &&
  approxEq A.m12 B.m12 && approxEq A.m13 B.m13 && approxEq A.m20 B.m20 &&
  approxEq A.m21 B.m21 && approxEq A.m22 B.m22 && approxEq A.m23 B.m23 &&
  approxEq A.m30 B.m30 && approxEq A.m31 B.m31 && approxEq A.m32 B.m32 &&
  approxEq A.m33 B.m33

/-! ## Transform builders (`matrices/transformations.rs`) -/

/-- `translation(x, y, z)`. -/
def translation (x y z : ℚ) : Matrix4 :=
  ⟨1, 0, 0, x, 0, 1, 0, y, 0, 0, 1, z, 0, 0, 0, 1⟩

/-- `scaling(x, y, z)`. -/
def scaling (x y z : ℚ) : Matrix4 :=
  ⟨x, 0, 0, 0, 0, y, 0, 0, 0, 0, z, 0, 0, 0, 0, 1⟩

/-- `rotation_x(rad)`. -/
def rotationX (F : FOps) (rad : ℚ) : Matrix4 :=
  ⟨1, 0, 0, 0,
   0, F.cos rad, -1 * F.sin rad, 0,
   0, F.sin rad, F.cos rad, 0,
   0, 0, 0, 1⟩

/-- `rotation_y(rad)`. -/
def rotationY (F : FOps) (rad : ℚ) : Matrix4 :=
  ⟨F.cos rad, 0, F.sin rad, 0,
   0, 1, 0, 0,
   -1 * F.sin rad, 0, F.cos rad, 0,
   0, 0, 0, 1⟩

/-- `rotation_z(rad)`. -/
def rotationZ (F : FOps) (rad : ℚ) : Matrix4 :=
  ⟨F.cos rad, -1 * F.sin rad, 0, 0,
   F.sin rad, F.cos rad, 0, 0,
   0, 0, 1, 0,
   0, 0, 0, 1⟩

/-- `shearing(xy, xz, yx, yz, zx, zy)`. -/
def shearing (xy xz yx yz zx zy : ℚ) : Matrix4 :=
  ⟨1, xy, xz, 0, yx, 1, yz, 0, zx, zy, 1, 0, 0, 0, 0, 1⟩

/-! ## Patterns (`surfaces/patterns.rs`) -/

/-- `PatternType`. -/
inductive PatternType where
  | solid
  | stripe
  | gradient
  | ring
  | checker3d
  | test
deriving DecidableEq, Repr

/-- `Pattern { pattern_type, transform, inverse_transform, color1, color2 }`. -/
structure Pattern where
  patternType : PatternType
  transform : Matrix4
  invTransform : Matrix4
  color1 : Color
  color2 : Color
deriving DecidableEq, Repr

/-- `Pattern::new`. -/
def Pattern.new (t : PatternType) (c1 c2 : Color) : Pattern :=
  ⟨t, Matrix4.identity, Matrix4.identity, c1, c2⟩

/-- `solid()`. -/
def solidPattern : Pattern := Pattern.new .solid white black

/-- `stripe_at`. -/
def stripeAt (a b : Color) (p : Tuple) : Color :=
  if ⌊p.x⌋ % 2 = 0 then a else b

/-- `gradient_at`. -/
def gradientAt (a b : Color) (p : Tuple) : Color :=
  a.add ((b.sub a).scale (p.x - ⌊p.x⌋))

/-- `ring_at` (the `as usize` cast of the floored root only feeds a
parity test; the floor's parity is taken on the rational model). -/
def ringAt (F : FOps) (a b : Color) (p : Tuple) : Color :=
  if ⌊F.sqrt (p.x ^ 2 + p.z ^ 2)⌋ % 2 = 0 then a else b

/-- `checker_3d_at`. -/
def checker3dAt (a b : Color) (p : Tuple) : Color :=
  if (⌊p.x⌋ + ⌊p.y⌋ + ⌊p.z⌋) % 2 = 0 then a else b

/-- `Pattern::pattern_at`. -/
def Pattern.patternAt (F : FOps) (pt : Pattern) (p : Tuple) : Color :=
  match pt.patternType with
  | .stripe => stripeAt pt.color1 pt.color2 p
  | .gradient => gradientAt pt.color1 pt.color2 p
  | .ring => ringAt F pt.color1 pt.color2 p
  | .checker3d => checker3dAt pt.color1 pt.color2 p
  | .solid => black
  | .test => color p.x p.y p.z

/-- Derived `PartialEq` for `Pattern`: type exact, matrices and colors by
their own (epsilon) `PartialEq` impls. -/
def Pattern.peq (a b : Pattern) : Bool :=
  a.patternType = b.patternType && a.transform.peq b.transform &&
    a.invTransform.peq b.invTransform && a.color1.peq b.color1 && a.color2.peq b.color2

/-! ## Materials (`surfaces/materials.rs`) -/

/-- `Material`. -/
structure Material where
  color : Color
  ambient : ℚ
  diffuse : ℚ
  specular : ℚ
  shininess : ℚ
  pattern : Pattern
  reflective : ℚ
  transparency : ℚ
  refractiveIndex : ℚ
  castsShadow : Bool
deriving DecidableEq, Repr

/-- `Material::new` (defaults). -/
def Material.new : Material :=
  { color := white, ambient := 1/10, diffuse := 9/10, specular := 9/10,
    shininess := 200, pattern := solidPattern, reflective := 0,
    transparency := 0, refractiveIndex := 1, castsShadow := true }

/-- Derived `PartialEq` for `Material`: colors/pattern by their own
(epsilon) impls, scalar fields and the shadow flag exact. -/
def Material.peq (a b : Material) : Bool :=
  a.color.peq b.color && a.ambient = b.ambient && a.diffuse = b.diffuse &&
    a.specular = b.specular && a.shininess = b.shininess &&
    a.pattern.peq b.pattern && a.reflective = b.reflective &&
    a.transparency = b.transparency && a.refractiveIndex = b.refractiveIndex &&
    a.castsShadow = b.castsShadow

/-! ## Shapes and objects (`shapes/objects.rs`) -/

/-- `Shape` (closed sum type). -/
inductive Shape where
  | sphere
  | plane
  | cube
  | cylinder (min max : ℚ) (closed : Bool)
  | cone (min max : ℚ) (closed : Bool)
deriving DecidableEq, Repr

/-- The 15-slot `transformations_list`
`{tx,ty,tz,sx,sy,sz,rx,ry,rz,shxy,shxz,shyx,shyz,shzx,shzy}`. -/
structure TList where
  tx : ℚ
  ty : ℚ
  tz : ℚ
  sx : ℚ
  sy : ℚ
  sz : ℚ
  rx : ℚ
  ry : ℚ
  rz : ℚ
  shxy : ℚ
  shxz : ℚ
  shyx : ℚ
  shyz : ℚ
  shzx : ℚ
  shzy : ℚ
deriving DecidableEq, Repr

/-- The default `transformations_list` of `Object::new` / `Group::new`. -/
def TList.default : TList := ⟨0, 0, 0, 1, 1, 1, 0, 0, 0, 0, 0, 0, 0, 0, 0⟩

/-- `Object { material, transform, inverse_transform,
inverse_transform_transposed, shape, transformations_list }`. -/
structure Object where
  material : Material
  transform : Matrix4
  invTransform : Matrix4
  invTransformT : Matrix4
  shape : Shape
  tlist : TList
deriving DecidableEq, Repr

/-- `Object::new`. -/
def Object.new (s : Shape) : Object :=
  { material := Material.new, transform := Matrix4.identity,
    invTransform := Matrix4.identity, invTransformT := Matrix4.identity,
    shape := s, tlist := TList.default }

/-- Derived `PartialEq` for `Object`: every field, matrices by their
epsilon `PartialEq`, the material by its own impl, shape and the 15-slot
list by exact equality. -/
def Object.peq (a b : Object) : Bool :=
  a.material.peq b.material && a.transform.peq b.transform &&
    a.invTransform.peq b.invTransform && a.invTransformT.peq b.invTransformT &&
    a.shape = b.shape && a.tlist = b.tlist

/-- `Object::set_transform`: stores the transform and caches its inverse
and the inverse's transpose; `invert` can panic (`none`). -/
def Object.setTransform (o : Object) (t : Matrix4) : Option Object :=
  (t.invert).map fun ti =>
    { o with transform := t, invTransform := ti, invTransformT := ti.transpose }

/-- The transform recombination `T·S·Rx·Ry·Rz·Sh` shared by
`Object::update_transform` and `Group::update_transform`. -/
def TList.toMatrix (F : FOps) (l : TList) : Matrix4 :=
  ((((translation l.tx l.ty l.tz).mul (scaling l.sx l.sy l.sz)).mul
      (rotationX F l.rx)).mul (rotationY F l.ry)).mul
    (((rotationZ F l.rz).mul (shearing l.shxy l.shxz l.shyx l.shyz l.shzx l.shzy)))

/-- `Object::update_transform`. -/
def Object.updateTransform (F : FOps) (o : Object) : Option Object :=
  o.setTransform (o.tlist.toMatrix F)

/-- `Object::translate_x`. -/
def Object.translateX (F : FOps) (o : Object) (x : ℚ) : Option Object :=
  Object.updateTransform F { o with tlist := { o.tlist with tx := x } }

/-- The parameter combination of `combine_transforms`: slots 0–2
(translation) and 6–14 (rotation, shear) add; slots 3–5 (scale)
multiply. -/
def TList.combine (child parent : TList) : TList :=
  { tx := child.tx + parent.tx, ty := child.ty + parent.ty, tz := child.tz + parent.tz,
    sx := child.sx * parent.sx, sy := child.sy * parent.sy, sz := child.sz * parent.sz,
    rx := child.rx + parent.rx, ry := child.ry + parent.ry, rz := child.rz + parent.rz,
    shxy := child.shxy + parent.shxy, shxz := child.shxz + parent.shxz,
    shyx := child.shyx + parent.shyx, shyz := child.shyz + parent.shyz,
    shzx := child.shzx + parent.shzx, shzy := child.shzy + parent.shzy }

/-- `combine_transforms(list)` on an `Object` (the combination followed by
`update_transform`). -/
def Object.combineTransforms (F : FOps) (o : Object) (list : TList) : Option Object :=
  Object.updateTransform F { o with tlist := o.tlist.combine list }

/-! Material accessors/setters on `Object` (plain field updates). -/

/-- `Object::set_color`. -/
def Object.setColor (o : Object) (c : Color) : Object :=
  { o with material := { o.material with color := c } }

/-- `Object::set_ambient`. -/
def Object.setAmbient (o : Object) (a : ℚ) : Object :=
  { o with material := { o.material with ambient := a } }

/-- `Object::set_diffuse`. -/
def Object.setDiffuse (o : Object) (a : ℚ) : Object :=
  { o with material := { o.material with diffuse := a } }

/-- `Object::set_specular`. -/
def Object.setSpecular (o : Object) (a : ℚ) : Object :=
  { o with material := { o.material with specular := a } }

/-- `Object::set_shininess`. -/
def Object.setShininess (o : Object) (a : ℚ) : Object :=
  { o with material := { o.material with shininess := a } }

/-- `Object::set_reflective`. -/
def Object.setReflective (o : Object) (a : ℚ) : Object :=
  { o with material := { o.material with reflective := a } }

/-- `Object::set_transparency`. -/
def Object.setTransparency (o : Object) (a : ℚ) : Object :=
  { o with material := { o.material with transparency := a } }

/-- `Object::set_refractive_index`. -/
def Object.setRefractiveIndex (o : Object) (a : ℚ) : Object :=
  { o with material := { o.material with refractiveIndex := a } }

/-- `Object::set_casts_shadow`. -/
def Object.setCastsShadow (o : Object) (b : Bool) : Object :=
  { o with material := { o.material with castsShadow := b } }

/-- `Object::get_refractive_index`. -/
def Object.refractiveIndex (o : Object) : ℚ := o.material.refractiveIndex

/-! ## Rays and intersections (`rays.rs`) -/

/-- `Ray { origin, direction }` (the constructor's panic guards hold at
every construction site on the renderer's path: origins are points and
directions are vectors by construction). -/
structure Ray where
  origin : Tuple
  direction : Tuple
deriving DecidableEq, Repr

/-- `Ray::position`. -/
def Ray.position (r : Ray) (t : ℚ) : Tuple :=
  r.origin.add (r.direction.scale t)

/-- `Ray::transform`. -/
def Ray.transform (r : Ray) (m : Matrix4) : Ray :=
  ⟨m.mulT r.origin, m.mulT r.direction⟩

/-- `Intersection { t_value, object }`. -/
structure Intersection where
  t : ℚ
  object : Object
deriving DecidableEq, Repr

/-- Derived `PartialEq` for `Intersection`: `t` exact, object by its
`PartialEq`. -/
def Intersection.peq (a b : Intersection) : Bool :=
  a.t = b.t && a.object.peq b.object

/-! ## Shape kernels -/

/-- `spheres::new`. -/
def spheresNew : Object := Object.new .sphere

/-- `spheres::glass_sphere`. -/
def glassSphere : Object :=
  ((((((((spheresNew.setTransparency (9/10)).setReflective (9/10)).setRefractiveIndex
      (3/2)).setColor black).setCastsShadow false).setAmbient 0).setDiffuse
      0).setShininess 300).setSpecular (9/10)

/-- `spheres::normal_at`. -/
def spheresNormalAt (pt : Tuple) : Tuple := pt.sub (point 0 0 0)

/-- `spheres::intersect`. -/
def spheresIntersect (F : FOps) (sphere : Object) (ray : Ray) : List Intersection :=
  let vecFromSphereToRay := ray.origin.sub origin
  let a := ray.direction.dot ray.direction
  let b := 2 * ray.direction.dot vecFromSphereToRay
  let c := vecFromSphereToRay.dot vecFromSphereToRay - 1
  let disc := b ^ 2 - 4 * a * c
  if disc < 0 then []
  else
    let t1 := (-b - F.sqrt disc) / (2 * a)
    let t2 := (-b + F.sqrt disc) / (2 * a)
    if t1 < t2 then [⟨t1, sphere⟩, ⟨t2, sphere⟩] else [⟨t2, sphere⟩, ⟨t1, sphere⟩]

/-- `planes::normal_at`. -/
def planesNormalAt : Tuple := vector 0 1 0

/-- `planes::intersect`. -/
def planesIntersect (plane : Object) (ray : Ray) : List Intersection :=
  if approxEq ray.direction.y 0 then []
  else [⟨-ray.origin.y / ray.direction.y, plane⟩]

/-- `cubes::check_axis`. -/
def checkAxis (o d : ℚ) : ℚ × ℚ :=
  let tminNum := -1 - o
  let tmaxNum := 1 - o
  let p : ℚ × ℚ :=
    if |d| ≥ eps then (tminNum / d, tmaxNum / d)
    else (tminNum * f64MAX, tmaxNum * f64MAX)
  if p.1 > p.2 then (p.2, p.1) else p

/-- `cubes::intersect`. -/
def cubesIntersect (cube : Object) (ray : Ray) : List Intersection :=
  let xt := checkAxis ray.origin.x ray.direction.x
  let yt := checkAxis ray.origin.y ray.direction.y
  if yt.1 > xt.2 ∨ xt.1 > yt.2 then []
  else
    let zt := checkAxis ray.origin.z ray.direction.z
    let tmin := max (max xt.1 yt.1) zt.1
    let tmax := min (min xt.2 yt.2) zt.2
    if tmin > tmax then [] else [⟨tmin, cube⟩, ⟨tmax, cube⟩]

/-- `cubes::normal_at`. -/
def cubesNormalAt (p : Tuple) : Tuple :=
  let maxc := max (max |p.x| |p.y|) |p.z|
  if maxc = |p.x| then vector p.x 0 0
  else if maxc = |p.y| then vector 0 p.y 0
  else vector 0 0 p.z

/-- `cylinders::max` (with the non-cylinder fallback). -/
def cylMax (o : Object) : ℚ :=
  match o.shape with
  | .cylinder _ mx _ => mx
  | _ => f64MAX

/-- `cylinders::min`. -/
def cylMin (o : Object) : ℚ :=
  match o.shape with
  | .cylinder mn _ _ => mn
  | _ => f64MIN

/-- `cylinders::is_closed`. -/
def cylClosed (o : Object) : Bool :=
  match o.shape with
  | .cylinder _ _ c => c
  | _ => false

/-- `cylinders::check_cap`: the cap disk has radius 1. -/
def cylCheckCap (ray : Ray) (t : ℚ) : Bool :=
  let x := ray.origin.x + t * ray.direction.x
  let z := ray.origin.z + t * ray.direction.z
  x ^ 2 + z ^ 2 ≤ 1

/-- `cylinders::intersect_caps` (returns the intersections it appends). -/
def cylIntersectCaps (cyl : Object) (ray : Ray) : List Intersection :=
  if ¬ cylClosed cyl ∨ approxEq ray.direction.y 0 then []
  else
    let t1 := (cylMin cyl - ray.origin.y) / ray.direction.y
    let t2 := (cylMax cyl - ray.origin.y) / ray.direction.y
    (if cylCheckCap ray t1 then [⟨t1, cyl⟩] else []) ++
      (if cylCheckCap ray t2 then [⟨t2, cyl⟩] else [])

/-- `cylinders::intersect`. -/
def cylindersIntersect (F : FOps) (cyl : Object) (ray : Ray) : List Intersection :=
  let a := ray.direction.x ^ 2 + ray.direction.z ^ 2
  if a < eps then cylIntersectCaps cyl ray
  else
    let b := 2 * ray.origin.x * ray.direction.x + 2 * ray.origin.z * ray.direction.z
    let c := ray.origin.x ^ 2 + ray.origin.z ^ 2 - 1
    let disc := b ^ 2 - 4 * a * c
    if disc < 0 then []
    else
      let s0 := (-b - F.sqrt disc) / (2 * a)
      let s1 := (-b + F.sqrt disc) / (2 * a)
      let t0 := if s0 > s1 then s1 else s0
      let t1 := if s0 > s1 then s0 else s1
      let y0 := ray.origin.y + t0 * ray.direction.y
      let y1 := ray.origin.y + t1 * ray.direction.y
      ((if cylMin cyl < y0 ∧ y0 < cylMax cyl then [⟨t0, cyl⟩] else []) ++
        (if cylMin cyl < y1 ∧ y1 < cylMax cyl then [⟨t1, cyl⟩] else [])) ++
        cylIntersectCaps cyl ray

/-- `cylinders::normal_at`. -/
def cylindersNormalAt (cyl : Object) (p : Tuple) : Tuple :=
  let d := p.x ^ 2 + p.z ^ 2
  if d < 1 ∧ p.y ≥ cylMax cyl - eps then vector 0 1 0
  else if d < 1 ∧ p.y ≤ cylMin cyl + eps then vector 0 (-1) 0
  else vector p.x 0 p.z

/-- `cones::min`. -/
def coneMin (o : Object) : ℚ :=
  match o.shape with
  | .cone mn _ _ => mn
  | _ => f64MIN

/-- `cones::max`. -/
def coneMax (o : Object) : ℚ :=
  match o.shape with
  | .cone _ mx _ => mx
  | _ => f64MAX

/-- `cones::is_closed`. -/
def coneClosed (o : Object) : Bool :=
  match o.shape with
  | .cone _ _ c => c
  | _ => false

/-- `cones::check_cap`: the cap disk radius equals `|y|` of the cap. -/
def coneCheckCap (ray : Ray) (t y : ℚ) : Bool :=
  let x := ray.origin.x + t * ray.direction.x
  let z := ray.origin.z + t * ray.direction.z
  x ^ 2 + z ^ 2 ≤ |y|

/-- `cones::intersect_caps`. -/
def coneIntersectCaps (cone : Object) (ray : Ray) : List Intersection :=
  if ¬ coneClosed cone ∨ approxEq ray.direction.y 0 then []
  else
    let t1 := (coneMin cone - ray.origin.y) / ray.direction.y
    let t2 := (coneMax cone - ray.origin.y) / ray.direction.y
    (if coneCheckCap ray t1 (coneMin cone) then [⟨t1, cone⟩] else []) ++
      (if coneCheckCap ray t2 (coneMax cone) then [⟨t2, cone⟩] else [])

/-- `cones::intersect`. -/
def conesIntersect (F : FOps) (cone : Object) (ray : Ray) : List Intersection :=
  let a := ray.direction.x ^ 2 - ray.direction.y ^ 2 + ray.direction.z ^ 2
  let b := 2 * ray.origin.x * ray.direction.x - 2 * ray.origin.y * ray.direction.y +
    2 * ray.origin.z * ray.direction.z
  if approxEq a 0 ∧ approxEq b 0 then coneIntersectCaps cone ray
  else
    let c := ray.origin.x ^ 2 - ray.origin.y ^ 2 + ray.origin.z ^ 2
    if approxEq a 0 then
      ⟨-c / (2 * b), cone⟩ :: coneIntersectCaps cone ray
    else
      let disc := b ^ 2 - 4 * a * c
      if disc < 0 then []
      else
        let s0 := (-b - F.sqrt disc) / (2 * a)
        let s1 := (-b + F.sqrt disc) / (2 * a)
        let t0 := if s0 > s1 then s1 else s0
        let t1 := if s0 > s1 then s0 else s1
        let y0 := ray.origin.y + t0 * ray.direction.y
        let y1 := ray.origin.y + t1 * ray.direction.y
        ((if coneMin cone < y0 ∧ y0 < coneMax cone then [⟨t0, cone⟩] else []) ++
          (if coneMin cone < y1 ∧ y1 < coneMax cone then [⟨t1, cone⟩] else [])) ++
          coneIntersectCaps cone ray

/-- `cones::normal_at`. -/
def conesNormalAt (F : FOps) (cone : Object) (p : Tuple) : Tuple :=
  let d := p.x ^ 2 + p.z ^ 2
  if d < 1 ∧ p.y ≥ coneMax cone - eps then vector 0 1 0
  else if d < 1 ∧ p.y ≤ coneMin cone + eps then vector 0 (-1) 0
  else
    let y := F.sqrt (p.x ^ 2 + p.z ^ 2)
    vector p.x (if p.y > 0 then -y else y) p.z

/-! ## Object-level ray tracing (`shapes/objects.rs`) -/

/-- `Object::normal_at`. -/
def Object.normalAt (F : FOps) (o : Object) (pt : Tuple) : Tuple :=
  let localPoint := o.invTransform.mulT pt
  let localNormal :=
    match o.shape with
    | .sphere => spheresNormalAt localPoint
    | .plane => planesNormalAt
    | .cube => cubesNormalAt localPoint
    | .cylinder _ _ _ => cylindersNormalAt o localPoint
    | .cone _ _ _ => conesNormalAt F o localPoint
  let worldNormal := o.invTransformT.mulT localNormal
  worldNormal.vectorize.normalize F

/-- `Object::intersect`. -/
def Object.intersect (F : FOps) (o : Object) (ray : Ray) : List Intersection :=
  let localRay := ray.transform o.invTransform
  match o.shape with
  | .sphere => spheresIntersect F o localRay
  | .plane => planesIntersect o localRay
  | .cube => cubesIntersect o localRay
  | .cylinder _ _ _ => cylindersIntersect F o localRay
  | .cone _ _ _ => conesIntersect F o localRay

/-- `Object::pattern_at_object`. -/
def Object.patternAtObject (F : FOps) (o : Object) (pt : Tuple) : Color :=
  if o.material.pattern.patternType = .solid then o.material.color
  else
    let localPoint := o.invTransform.mulT pt
    let patternSpacePoint := o.material.pattern.invTransform.mulT localPoint
    o.material.pattern.patternAt F patternSpacePoint

/-! ## Sorting intersections

`world.rs` and `groups.rs` sort with `sort_by(partial_cmp)` on the `t`
value, Rust's stable sort.  A stable sort by a total key is a unique
function of its input, so the stable insertion sort below is an exact
model of it. -/

/-- Stable insertion of an intersection into a `t`-sorted list: placed
before the first strictly larger `t`, after equal ones. -/
def insertByT (i : Intersection) : List Intersection → List Intersection
  | [] => [i]
  | j :: rest => if j.t ≤ i.t then j :: insertByT i rest else i :: j :: rest

/-- Stable sort of intersections by ascending `t` (the model of
`sort_by(|a, b| a.partial_cmp(b).unwrap())`). -/
def sortByT (l : List Intersection) : List Intersection := l.foldr insertByT []

/-! ## Lights (`scenes/lights.rs`) -/

/-- `Light { position, intensity }` (the `light` field is always
`PointLight`, the only variant, and is omitted). -/
structure Light where
  position : Tuple
  intensity : Color
deriving DecidableEq, Repr

/-- `lighting(material, object, light, point, eyev, normalv, in_shadow)`.
The source picks the base color with the pattern branch
(`stripe_at_object` when a non-solid pattern is present, the flat
material color otherwise); `Object::pattern_at_object` performs exactly
that dispatch, including the solid short-circuit. -/
def lighting (F : FOps) (material : Material) (object : Object) (light : Light)
    (pt eyev normalv : Tuple) (inShadow : Bool) : Color :=
  let clr := object.patternAtObject F pt
  let effectiveColor := clr.mulC light.intensity
  let lightv := (light.position.sub pt).normalize F
  let ambient := effectiveColor.scale material.ambient
  if inShadow then ambient
  else
    let lightDotNormal := lightv.dot normalv
    if lightDotNormal ≥ 0 then
      let diffuse := (effectiveColor.scale material.diffuse).scale lightDotNormal
      let reflectv := (lightv.neg).reflectVector normalv
      let reflectDotEye := reflectv.dot eyev
      let specular :=
        if reflectDotEye ≤ 0 then color 0 0 0
        else (light.intensity.scale material.specular).scale (F.powf reflectDotEye material.shininess)
      (ambient.add diffuse).add specular
    else (ambient.add black).add black

/-! ## World (`scenes/world.rs`) -/

/-- `DEFAULT_RECURSION_DEPTH`. -/
def DEFAULT_RECURSION_DEPTH : Nat := 5

/-- `World { objects, lights }`. -/
structure World where
  objects : List Object
  lights : List Light

/-- `self.lights[0]`; the source indexes unconditionally (panicking on
an empty light list), every theorem below assumes a non-empty list. -/
def World.light0 (w : World) : Light :=
  w.lights.headD ⟨origin, black⟩

/-- `World::intersect_world`: all objects' intersections, sorted by
ascending `t`. -/
def World.intersectWorld (F : FOps) (w : World) (ray : Ray) : List Intersection :=
  sortByT ((w.objects.map fun o => o.intersect F ray).flatten)

/-- `World::hit_world`: the first intersection with `t ≥ 0`. -/
def hitWorld : List Intersection → Option Intersection
  | [] => none
  | i :: rest => if i.t ≥ 0 then some i else hitWorld rest

/-! ### The refraction containers stack of `prepare_computations` -/

/-- Refractive index of the top of the containers stack (`1.0` when the
stack is empty); the stack grows at the list's tail, so the top is the
last element. -/
def containersTopRefr (cs : List Object) : ℚ :=
  match cs.getLast? with
  | some c => c.refractiveIndex
  | none => 1

/-- `containers.remove(x)` at the first position whose entry compares
equal (`PartialEq`) to the object. -/
def removeFirstPeq (o : Object) : List Object → List Object
  | [] => []
  | c :: rest => if c.peq o then rest else c :: removeFirstPeq o rest

/-- One step of the containers bookkeeping: remove the first
`PartialEq`-equal entry when present, push otherwise. -/
def processContainers (cs : List Object) (o : Object) : List Object :=
  if cs.any fun c => c.peq o then removeFirstPeq o cs else cs ++ [o]

/-- The `n1`/`n2` loop of `prepare_computations`: replay the
intersection list, maintaining the containers stack, until the first
entry that compares equal to the hit; `n1` is the top's refractive index
before that entry is processed, `n2` after.  `(1, 1)` when no entry
matches the hit. -/
def n1n2Go (hit : Intersection) : List Intersection → List Object → ℚ × ℚ
  | [], _ => (1, 1)
  | i :: rest, cs =>
    if i.peq hit then
      (containersTopRefr cs, containersTopRefr (processContainers cs i.object))
    else n1n2Go hit rest (processContainers cs i.object)

/-- `Computations`. -/
structure Computations where
  object : Object
  tValue : ℚ
  point : Tuple
  eyev : Tuple
  normalv : Tuple
  inside : Bool
  overPoint : Tuple
  underPoint : Tuple
  reflectv : Tuple
  n1 : ℚ
  n2 : ℚ
deriving DecidableEq, Repr

/-- `Computations::new` (computes `over_point`/`under_point` by nudging
the hit point along `±normal·EPSILON`). -/
def Computations.new (intersection : Intersection) (pt eyev normalv : Tuple)
    (inside : Bool) (reflectv : Tuple) (n1 n2 : ℚ) : Computations :=
  { object := intersection.object, tValue := intersection.t, point := pt,
    eyev := eyev, normalv := normalv, inside := inside,
    overPoint := pt.add (normalv.scale eps),
    underPoint := pt.sub (normalv.scale eps),
    reflectv := reflectv, n1 := n1, n2 := n2 }

/-- `prepare_computations(intersection, ray, intersection_list)`. -/
def prepareComputations (F : FOps) (intersection : Intersection) (ray : Ray)
    (intersectionList : List Intersection) : Computations :=
  let pt := ray.position intersection.t
  let eyev := ray.direction.neg
  let normal0 := intersection.object.normalAt F pt
  let inside := normal0.dot eyev < 0
  let normalv := if inside then normal0.neg else normal0
  let reflectv := ray.direction.reflectVector normalv
  let ns := n1n2Go intersection intersectionList []
  Computations.new intersection pt eyev normalv inside reflectv ns.1 ns.2

/-- The closing formula of `Computations::schlick`:
`r0 + (1 − r0)·(1 − cos)⁵`. -/
def schlickTail (n1 n2 cos : ℚ) : ℚ :=
  let r0 := ((n1 - n2) / (n1 + n2)) ^ 2
  r0 + (1 - r0) * (1 - cos) ^ 5

/-- `Computations::schlick`. -/
def Computations.schlick (F : FOps) (c : Computations) : ℚ :=
  let cos0 := c.eyev.dot c.normalv
  if c.n1 > c.n2 then
    let n := c.n1 / c.n2
    let sin2t := n ^ 2 * (1 - cos0 ^ 2)
    if sin2t > 1 then 1
    else schlickTail c.n1 c.n2 (F.sqrt (1 - sin2t))
  else schlickTail c.n1 c.n2 cos0

/-- `World::is_shadowed`. -/
def World.isShadowed (F : FOps) (w : World) (pt : Tuple) : Bool :=
  let vec := (w.light0.position).sub pt
  let distance := vec.magnitude F
  let ray : Ray := ⟨pt, vec.normalize F⟩
  match hitWorld (w.intersectWorld F ray) with
  | some hit => decide (hit.t < distance) && hit.object.material.castsShadow
  | none => false

/-! ### The recursive shading pipeline

`color_at`, `shade_hit`, `reflected_color` and `refracted_color` are
mutually recursive in the source, bounded by the `remaining` counter;
here the recursion is factored through bodies parametrized by the
continuation `recur` (standing for `color_at` at `remaining - 1`), and
tied at `World.colorAt` by recursion on the counter. -/

/-- Body of `World::reflected_color`. -/
def reflectedColorGo (recur : Ray → Color) (comps : Computations) (remaining : Nat) : Color :=
  if remaining < 1 then black
  else
    let reflective := comps.object.material.reflective
    if reflective = 0 then black
    else (recur ⟨comps.overPoint, comps.reflectv⟩).scale reflective

/-- Body of `World::refracted_color`. -/
def refractedColorGo (F : FOps) (recur : Ray → Color) (comps : Computations)
    (remaining : Nat) : Color :=
  if comps.object.material.transparency = 0 ∨ remaining = 0 then black
  else
    let nRatio := comps.n1 / comps.n2
    let cosI := comps.eyev.dot comps.normalv
    let sin2t := nRatio ^ 2 * (1 - cosI ^ 2)
    if sin2t > 1 then black
    else
      let cosT := F.sqrt (1 - sin2t)
      let direction := (comps.normalv.scale (nRatio * cosI - cosT)).sub (comps.eyev.scale nRatio)
      (recur ⟨comps.underPoint, direction⟩).scale comps.object.material.transparency

/-- Body of `World::shade_hit`. -/
def shadeHitGo (F : FOps) (w : World) (recur : Ray → Color) (comps : Computations)
    (remaining : Nat) : Color :=
  let shadowed := w.isShadowed F comps.overPoint
  let clr := lighting F comps.object.material comps.object w.light0 comps.overPoint
    comps.eyev comps.normalv shadowed
  let reflections := reflectedColorGo recur comps remaining
  let refractions := refractedColorGo F recur comps remaining
  if comps.object.material.reflective > 0 ∧ comps.object.material.transparency > 0 then
    let reflectance := comps.schlick F
    (clr.add (reflections.scale reflectance)).add (refractions.scale (1 - reflectance))
  else (clr.add reflections).add refractions

/-- Body of `World::color_at`. -/
def colorAtBody (F : FOps) (w : World) (recur : Ray → Color) (remaining : Nat)
    (ray : Ray) : Color :=
  let xs := w.intersectWorld F ray
  match hitWorld xs with
  | some i => shadeHitGo F w recur (prepareComputations F i ray xs) remaining
  | none => black

/-- `World::color_at`.  At `remaining = 0` both secondary-color guards
fire before the recursive call, so the continuation is never invoked and
may be anything; `fun _ => black` is used
(see `reflectedColorGo_zero`/`refractedColorGo_zero`). -/
def World.colorAt (F : FOps) (w : World) : Nat → Ray → Color
  | 0 => colorAtBody F w (fun _ => black) 0
  | n + 1 => colorAtBody F w (w.colorAt F n) (n + 1)

/-- `World::reflected_color` (the continuation is `color_at` at
`remaining - 1`, as in the source). -/
def World.reflectedColor (F : FOps) (w : World) (comps : Computations)
    (remaining : Nat) : Color :=
  reflectedColorGo (fun r => w.colorAt F (remaining - 1) r) comps remaining

/-- `World::refracted_color`. -/
def World.refractedColor (F : FOps) (w : World) (comps : Computations)
    (remaining : Nat) : Color :=
  refractedColorGo F (fun r => w.colorAt F (remaining - 1) r) comps remaining

/-- `World::shade_hit`. -/
def World.shadeHit (F : FOps) (w : World) (comps : Computations)
    (remaining : Nat) : Color :=
  shadeHitGo F w (fun r => w.colorAt F (remaining - 1) r) comps remaining

/-! ## Groups (`shapes/groups.rs`)

`ObjectHolder` wraps either a leaf `Object` or a `Group`; a `Group` is
its ordered children plus a transform (with cached inverse and
inverse-transpose) and its own 15-slot parameter list.  The group data
is inlined into the `grp` constructor (Lean cannot mutually define a
structure with an inductive). -/

inductive ObjectHolder where
  | obj (o : Object)
  | grp (children : List ObjectHolder) (transform invTransform invTransformT : Matrix4)
      (tlist : TList)
deriving Repr

/-- The per-intersection combination step of `Group::local_intersect`:
`new_obj.combine_transforms(self.transformations_list)` applied to every
collected child intersection (panic of the rebuilt transform's inversion
modelled as `none`). -/
def combineAll (F : FOps) (tl : TList) : List Intersection → Option (List Intersection)
  | [] => some []
  | i :: rest =>
    match i.object.combineTransforms F tl, combineAll F tl rest with
    | some o, some others => some (⟨i.t, o⟩ :: others)
    | _, _ => none

mutual

/-- `ObjectHolder::intersect` / `Group::intersect`: a leaf delegates to
`Object::intersect`; a group transforms the ray by its cached inverse
and runs `local_intersect`: collect every child's intersections, rewrite
each carried object by `combine_transforms` with the group's parameter
list, and sort by ascending `t`. -/
def ObjectHolder.intersect (F : FOps) : ObjectHolder → Ray → Option (List Intersection)
  | .obj o, ray => some (o.intersect F ray)
  | .grp children _t ti _tit tl, ray =>
    match childrenIntersect F children (ray.transform ti) with
    | some raw =>
      match combineAll F tl raw with
      | some combined => some (sortByT combined)
      | none => none
    | none => none

/-- The child-collection loop of `Group::local_intersect`. -/
def childrenIntersect (F : FOps) : List ObjectHolder → Ray → Option (List Intersection)
  | [], _ => some []
  | c :: rest, ray =>
    match ObjectHolder.intersect F c ray, childrenIntersect F rest ray with
    | some xs, some ys => some (xs ++ ys)
    | _, _ => none

end

/-! ## Camera and rendering (`scenes/camera.rs`, `scenes/canvas.rs`) -/

/-- `Camera` (the `transform_components` from/to/up triple only feeds
`view_transform` on mutation and is omitted; the renderers read only the
raster sizes, the cached pixel geometry and the cached inverse
transform). -/
structure Camera where
  hsize : Nat
  vsize : Nat
  fieldOfView : ℚ
  transform : Matrix4
  invTransform : Matrix4
  pixelSize : ℚ
  halfWidth : ℚ
  halfHeight : ℚ

/-- `Camera::ray_for_pixel`. -/
def Camera.rayForPixel (F : FOps) (c : Camera) (x y : Nat) : Ray :=
  let xoffset := ((x : ℚ) + 1/2) * c.pixelSize
  let yoffset := ((y : ℚ) + 1/2) * c.pixelSize
  let worldX := c.halfWidth - xoffset
  let worldY := c.halfHeight - yoffset
  let pixel := c.invTransform.mulT (point worldX worldY (-1))
  let orig := c.invTransform.mulT origin
  ⟨orig, (pixel.sub orig).normalize F⟩

/-- `Canvas`. -/
structure Canvas where
  width : Nat
  height : Nat
  pixels : List Color

/-- `Canvas::new(width, height)`: `width * height` black pixels. -/
def Canvas.new (width height : Nat) : Canvas :=
  ⟨width, height, List.replicate (width * height) black⟩

/-- `Canvas::xy_to_1d`. -/
def Canvas.xyTo1d (c : Canvas) (x y : Nat) : Nat := y * c.width + x

/-- `Canvas::write_pixel`. -/
def Canvas.writePixel (c : Canvas) (x y : Nat) (col : Color) : Canvas :=
  { c with pixels := c.pixels.set (c.xyTo1d x y) col }

/-- `Canvas::pixel_at`, total via `Option` (the source indexes, which
cannot go out of bounds at the call sites considered). -/
def Canvas.pixelAt (c : Canvas) (x y : Nat) : Option Color :=
  c.pixels[c.xyTo1d x y]?

/-- `Camera::render`: the sequential nested loop, one
`color_at(ray_for_pixel(x, y), DEFAULT_RECURSION_DEPTH)` per pixel. -/
def Camera.render (F : FOps) (c : Camera) (w : World) : Canvas :=
  (List.range c.vsize).foldl
    (fun img y =>
      (List.range c.hsize).foldl
        (fun img x =>
          img.writePixel x y (w.colorAt F DEFAULT_RECURSION_DEPTH (c.rayForPixel F x y)))
        img)
    (Canvas.new c.hsize c.vsize)

/-- `BAND_SIZE` of `Camera::parallel_render`. -/
def BAND_SIZE : Nat := 10

/-- The canvas partition behind `par_chunks_mut(n)`: maximal runs of `n`
consecutive pixels (`chunks` panics for `n = 0`; that case, which no
render with a positive raster reaches, is modelled as the empty
partition). -/
def chunkify (n : Nat) (l : List Color) : List (List Color) :=
  if h : n = 0 ∨ l = [] then []
  else l.take n :: chunkify n (l.drop n)
termination_by l.length
decreasing_by
  push_neg at h
  obtain ⟨hn, hl⟩ := h
  simp only [List.length_drop]
  have : 0 < l.length := List.length_pos.mpr hl
  omega

/-- The per-band loop body of `Camera::parallel_render`: band `i` covers
rows `i*BAND_SIZE ..`; a pixel is written only when its band-relative
index is within the band (the final band may be shorter).  The
progress-counter update and console printing have no effect on the
pixels and are dropped. -/
def bandProcess (F : FOps) (c : Camera) (w : World) (i : Nat) (band : List Color) :
    List Color :=
  (List.range BAND_SIZE).foldl
    (fun bd row =>
      (List.range c.hsize).foldl
        (fun bd col =>
          if row * c.hsize + col < bd.length then
            bd.set (row * c.hsize + col)
              (w.colorAt F DEFAULT_RECURSION_DEPTH (c.rayForPixel F col (row + i * BAND_SIZE)))
          else bd)
        bd)
    band

/-- `Camera::parallel_render`: the canvas is split into bands of
`hsize * BAND_SIZE` pixels, each band is filled independently (the bands
are disjoint and the world is read-only, so the parallel `for_each` is
the deterministic map below), and the bands are reassembled in place. -/
def Camera.parallelRender (F : FOps) (c : Camera) (w : World) : Canvas :=
  { width := c.hsize, height := c.vsize,
    pixels :=
      (((chunkify (c.hsize * BAND_SIZE)
            (List.replicate (c.hsize * c.vsize) black)).enum.map
          fun p => bandProcess F c w p.1 p.2)).flatten }

/-! ## Claim-side definitions

The spec describes the refraction containers stack with "value equality
of shape, material and transform"; the following definitions follow the
spec's words (to be compared against the source's full `PartialEq` on
`Object`). -/

/-- Spec-side equality: "value equality of shape, material and
transform" (each component by the repository's own value equality). -/
def Object.eq3 (a b : Object) : Bool :=
  a.shape = b.shape && a.material.peq b.material && a.transform.peq b.transform

/-- Spec-side stack removal at the first entry equal under `eq`. -/
def removeFirstBy (eq : Object → Object → Bool) (o : Object) : List Object → List Object
  | [] => []
  | c :: rest => if eq c o then rest else c :: removeFirstBy eq o rest

/-- Spec-side stack step: "an entry is removed when a structurally equal
Object is already on the stack, otherwise pushed". -/
def processContainersBy (eq : Object → Object → Bool) (cs : List Object) (o : Object) :
    List Object :=
  if cs.any fun c => eq c o then removeFirstBy eq o cs else cs ++ [o]

/-- Spec-side replay of an intersection prefix into a containers
stack. -/
def replayContainers (eq : Object → Object → Bool) (l : List Intersection) : List Object :=
  l.foldl (fun cs i => processContainersBy eq cs i.object) []

/-! ## Concrete fixtures for counterexamples and witnesses -/

/-- Test oracle satisfying the handful of `f64` facts the theorems
assume (`sqrt 1 = 1`, `cos 0 = 1`, `sin 0 = 0`). -/
def Ftest : FOps :=
  { sqrt := fun q => if q = 1 then 1 else 0,
    cos := fun q => if q = 0 then 1 else 0,
    sin := fun _ => 0,
    powf := fun _ _ => 0 }

/-- The zero matrix (singular: determinant 0). -/
def zeroM : Matrix4 := ⟨0, 0, 0, 0, 0, 0, 0, 0, 0, 0, 0, 0, 0, 0, 0, 0⟩

/-- A unit sphere with refractive index 1.5. -/
def sphereRefr15 : Object := spheresNew.setRefractiveIndex (3/2)

/-- `sphereRefr15` after `set_transform(translation(1, 0, 0))`: the
transform caches change, the 15-slot parameter list stays at its
default (see `cexA_from_set_transform`). -/
def cexA : Object :=
  { sphereRefr15 with
    transform := translation 1 0 0
    invTransform := translation (-1) 0 0
    invTransformT := (translation (-1) 0 0).transpose }

/-- `sphereRefr15` after the mutator `translate_x(1.0)`: same shape,
material and transform as `cexA`, but slot 0 of the parameter list is 1
(see `cexB_from_translate_x`). -/
def cexB : Object := { cexA with tlist := { TList.default with tx := 1 } }

/-- A default unit sphere (refractive index 1). -/
def cexC : Object := spheresNew

/-- Intersection prefix of the C1 counterexample. -/
def c1pre : List Intersection := [⟨1, cexA⟩, ⟨2, cexB⟩]

/-- Designated hit of the C1 counterexample. -/
def c1hit : Intersection := ⟨3, cexC⟩

/-- Sorted intersection list of the C1 counterexample. -/
def c1xs : List Intersection := c1pre ++ [c1hit]

/-- Ray of the C1 counterexample. -/
def c1ray : Ray := ⟨point 0 0 (-4), vector 0 0 1⟩

/-- Perpendicular ray from the origin (Schlick test). -/
def c5ray : Ray := ⟨origin, vector 0 1 0⟩

/-- Intersections of `c5ray` with the glass sphere. -/
def c5xs : List Intersection := [⟨-1, glassSphere⟩, ⟨1, glassSphere⟩]

/-- A `Computations` bundle under total internal reflection
(`n1 = 2 > n2 = 1`, grazing geometry). -/
def tirComps : Computations :=
  { object := glassSphere, tValue := 0, point := origin, eyev := vector 1 0 0,
    normalv := vector 0 1 0, inside := true, overPoint := origin,
    underPoint := origin, reflectv := vector 0 0 1, n1 := 2, n2 := 1 }

/-- A `Computations` bundle with `n1 ≤ n2` (no total internal
reflection). -/
def noTirComps : Computations := { tirComps with n1 := 1, n2 := 2 }

/-- Parameter list of a group scaled ×2 on all axes. -/
def c7tl : TList := { TList.default with sx := 2, sy := 2, sz := 2 }

/-- A unit sphere translated +5 on x via the `translate_x` mutator
(see `c7sphere_from_translate_x`). -/
def c7sphere : Object :=
  { spheresNew with
    transform := translation 5 0 0
    invTransform := translation (-5) 0 0
    invTransformT := (translation (-5) 0 0).transpose
    tlist := { TList.default with tx := 5 } }

/-- The group of the C7 test: scale ×2, one child sphere translated +5
on x (transform caches as `Group::scale_x/y/z` produce them, see
`c7_group_transform_from_mutators`). -/
def c7group : ObjectHolder :=
  .grp [.obj c7sphere] (scaling 2 2 2) (scaling (1/2) (1/2) (1/2))
    ((scaling (1/2) (1/2) (1/2)).transpose) c7tl

/-- Ray of the C7 test: origin (10, 0, -10), direction +z. -/
def c7ray : Ray := ⟨point 10 0 (-10), vector 0 0 1⟩

/-- The rebuilt transform of the C7 synthetic child:
`T(5,0,0)·S(2,2,2)` (rotations and shear at identity). -/
def m7 : Matrix4 := ⟨2, 0, 0, 5, 0, 2, 0, 0, 0, 0, 2, 0, 0, 0, 0, 1⟩

/-- The inverse of `m7`. -/
def m7inv : Matrix4 := ⟨1/2, 0, 0, -(5/2), 0, 1/2, 0, 0, 0, 0, 1/2, 0, 0, 0, 0, 1⟩

/-- The synthetic Object carried by the C7 group's intersections: the
child sphere with its parameters combined with the group's (translation
5 on x kept, scale ×2) and the transform caches rebuilt. -/
def c7combined : Object :=
  { c7sphere with
    transform := m7
    invTransform := m7inv
    invTransformT := m7inv.transpose
    tlist := ⟨5, 0, 0, 2, 2, 2, 0, 0, 0, 0, 0, 0, 0, 0, 0⟩ }

/-- A white point light. -/
def lightA : Light := ⟨point (-10) 10 (-10), white⟩

/-- A second, red light. -/
def lightB : Light := ⟨point 3 3 3, color 1 0 0⟩

/-- An empty world with one light. -/
def emptyW1 : World := ⟨[], [lightA]⟩

/-- A 1×1 camera with identity view transform. -/
def camW : Camera :=
  { hsize := 1, vsize := 1, fieldOfView := 1, transform := Matrix4.identity,
    invTransform := Matrix4.identity, pixelSize := 1, halfWidth := 1/2,
    halfHeight := 1/2 }

/-! # Theorems -/

/-! ## Reflexivity of the epsilon `PartialEq` comparisons -/

theorem approxEq_refl (a : ℚ) : approxEq a a = true := by
  simp [approxEq, eps]

theorem Color.peq_refl_color (c : Color) : c.peq c = true := by
  simp [Color.peq, approxEq_refl]

theorem Matrix4.peq_refl_matrix4 (m : Matrix4) : m.peq m = true := by
  simp [Matrix4.peq, approxEq_refl]

theorem Pattern.peq_refl_pattern (p : Pattern) : p.peq p = true := by
  simp [Pattern.peq, approxEq_refl, Color.peq_refl_color, Matrix4.peq_refl_matrix4]

theorem Material.peq_refl_material (m : Material) : m.peq m = true := by
  simp [Material.peq, approxEq_refl, Color.peq_refl_color, Pattern.peq_refl_pattern]

theorem Object.peq_refl_object (o : Object) : o.peq o = true := by
  simp [Object.peq, Material.peq_refl_material, Matrix4.peq_refl_matrix4]

theorem Intersection.peq_refl_intersection (i : Intersection) : i.peq i = true := by
  simp [Intersection.peq, Object.peq_refl_object]

/-! ## C8 — `Matrix4::invert` on singular matrices -/

/-- C8 counterexample: the claim says `Matrix4::invert` "never aborts
the operation for any input matrix"; on the (singular) zero matrix the
source takes the `panic!` branch (modelled as `none`): the operation is
aborted, not recovered. -/
theorem invert_singular_panics_cex : zeroM.invert = none := by
  have hdet : zeroM.determinant = 0 := by
    simp [zeroM, Matrix4.determinant, Matrix4.cofactor, Matrix4.minor, det3, det2]
  have hinv : zeroM.isInvertible = false := by
    simp [Matrix4.isInvertible, hdet, eps]
  simp [Matrix4.invert, hinv]

/-- C8 (amended): `Matrix4::invert` guards with `is_invertible` and
aborts (panics) exactly on the matrices whose determinant is within
`eps` of zero; there is no fallback result for them. -/
theorem invert_none_iff_not_invertible (M : Matrix4) :
    M.invert = none ↔ ¬ (|M.determinant| > eps) := by
  unfold Matrix4.invert Matrix4.isInvertible
  split
  next h => simpa using h
  next h => simpa using h

/-! ## C9 — `w` propagation through tuple add/sub -/

/-- C9 counterexample: the claim says `a + b` and `a - b` succeed for
every point/vector combination of operands; adding two points (`w` sum
2) and subtracting a point from a vector (`w` difference −1) both reach
the `tuple` constructor's panic branch. -/
theorem tuple_add_point_point_cex :
    (point 0 0 0).checkedAdd (point 0 0 0) = none ∧
      (vector 0 0 0).checkedSub (point 0 0 0) = none := by
  constructor <;> simp [Tuple.checkedAdd, Tuple.checkedSub, tupleCtor, point, vector]

/-- C9 (amended): for operands with `w ∈ {0, 1}`, `a + b` panics exactly
for point + point and `a - b` exactly for vector − point; in every other
combination the operation succeeds and propagates `w` as `a.w + b.w`
(resp. `a.w − b.w`). -/
theorem tuple_add_sub_checked (a b : Tuple) (ha : a.v = 0 ∨ a.v = 1)
    (hb : b.v = 0 ∨ b.v = 1) :
    a.checkedAdd b = (if a.v = 1 ∧ b.v = 1 then none else some (a.add b)) ∧
      a.checkedSub b = (if a.v = 0 ∧ b.v = 1 then none else some (a.sub b)) := by
  rcases ha with h1 | h1 <;> rcases hb with h2 | h2 <;>
    simp [Tuple.checkedAdd, Tuple.checkedSub, tupleCtor, Tuple.add, Tuple.sub,
      point, vector, h1, h2]

/-- Witness for `tuple_add_sub_checked` at `point 1 2 3` and
`vector 1 1 1`. -/
theorem tuple_add_sub_checked_witness :
    (point 1 2 3).checkedAdd (vector 1 1 1) = some ((point 1 2 3).add (vector 1 1 1)) ∧
      (point 1 2 3).checkedSub (vector 1 1 1) = some ((point 1 2 3).sub (vector 1 1 1)) := by
  have h := tuple_add_sub_checked (point 1 2 3) (vector 1 1 1) (Or.inr rfl) (Or.inl rfl)
  rcases h with ⟨h1, h2⟩
  rw [h1, h2]
  simp [point, vector]

/-- Bridge: on valid operands the checked operations agree with the
total projections used on the renderer's path. -/
theorem checkedAdd_eq_add (a b : Tuple) (h : a.v + b.v = 0 ∨ a.v + b.v = 1) :
    a.checkedAdd b = some (a.add b) := by
  rcases h with h | h <;>
    simp [Tuple.checkedAdd, tupleCtor, Tuple.add, point, vector, h]

/-! ## C3 — `World::reflected_color` -/

/-- C3: `reflected_color` is black when `remaining < 1` or the hit
object's reflective coefficient is 0, and otherwise scales
`color_at(Ray(over_point, reflectv), remaining − 1)` by the reflective
coefficient. -/
theorem reflected_color_eq (F : FOps) (w : World) (comps : Computations)
    (remaining : Nat) :
    w.reflectedColor F comps remaining =
      if remaining < 1 ∨ comps.object.material.reflective = 0 then black
      else
        (w.colorAt F (remaining - 1) ⟨comps.overPoint, comps.reflectv⟩).scale
          comps.object.material.reflective := by
  unfold World.reflectedColor reflectedColorGo
  by_cases h1 : remaining < 1 <;> by_cases h2 : comps.object.material.reflective = 0 <;>
    simp [h1, h2]

/-! ## C4 — `World::refracted_color` -/

/-- C4: `refracted_color` is black when the hit object's transparency is
0 or `remaining = 0`; with `n = n1/n2` and `cos θi = eyev·normalv` it is
black when `sin²θt = n²(1 − cos²θi) > 1`, and otherwise scales
`color_at` of the ray from `under_point` with direction
`normalv·(n·cosθi − cosθt) − eyev·n` at `remaining − 1` by the
transparency. -/
theorem refracted_color_eq (F : FOps) (w : World) (comps : Computations)
    (remaining : Nat) :
    w.refractedColor F comps remaining =
      if comps.object.material.transparency = 0 ∨ remaining = 0 then black
      else
        if (comps.n1 / comps.n2) ^ 2 * (1 - comps.eyev.dot comps.normalv ^ 2) > 1 then
          black
        else
          (w.colorAt F (remaining - 1)
              ⟨comps.underPoint,
                (comps.normalv.scale
                    ((comps.n1 / comps.n2) * comps.eyev.dot comps.normalv -
                      F.sqrt
                        (1 -
                          (comps.n1 / comps.n2) ^ 2 *
                            (1 - comps.eyev.dot comps.normalv ^ 2)))).sub
                  (comps.eyev.scale (comps.n1 / comps.n2))⟩).scale
            comps.object.material.transparency := by
  unfold World.refractedColor refractedColorGo
  rfl

/-! ## C2 — `World::is_shadowed` -/

/-- C2: with a non-empty light list, `is_shadowed(p)` is true exactly
when the ray from `p` toward the first light has a hit (the nearest
intersection with `t ≥ 0`) with `t` below the distance to that light
and whose object casts shadows; in particular objects with
`casts_shadow == false` never make a point shadowed. -/
theorem is_shadowed_iff (F : FOps) (w : World) (p : Tuple) (l : Light)
    (rest : List Light) (hw : w.lights = l :: rest) :
    (w.isShadowed F p = true ↔
      ∃ h,
        hitWorld (w.intersectWorld F ⟨p, ((w.light0.position).sub p).normalize F⟩) =
            some h ∧
          h.t < ((w.light0.position).sub p).magnitude F ∧
          h.object.material.castsShadow = true) := by
  unfold World.isShadowed
  cases hh : hitWorld (w.intersectWorld F ⟨p, ((w.light0.position).sub p).normalize F⟩) with
  | none => simp [hh]
  | some hit => simp [hh]

/-- Witness for `is_shadowed_iff`: an empty one-light world shadows no
point. -/
theorem is_shadowed_iff_witness :
    (emptyW1.isShadowed Ftest origin = true ↔
      ∃ h,
        hitWorld (emptyW1.intersectWorld Ftest
              ⟨origin, ((emptyW1.light0.position).sub origin).normalize Ftest⟩) =
            some h ∧
          h.t < ((emptyW1.light0.position).sub origin).magnitude Ftest ∧
          h.object.material.castsShadow = true) :=
  is_shadowed_iff Ftest emptyW1 origin lightA [] rfl

/-! ## C10 — only the first light matters -/

theorem intersectWorld_congr (F : FOps) (w₁ w₂ : World)
    (hobj : w₁.objects = w₂.objects) (ray : Ray) :
    w₁.intersectWorld F ray = w₂.intersectWorld F ray := by
  unfold World.intersectWorld
  rw [hobj]

theorem isShadowed_congr (F : FOps) (w₁ w₂ : World) (hobj : w₁.objects = w₂.objects)
    (hl : w₁.light0 = w₂.light0) (p : Tuple) :
    w₁.isShadowed F p = w₂.isShadowed F p := by
  unfold World.isShadowed
  rw [hl]
  simp only [intersectWorld_congr F w₁ w₂ hobj]

theorem shadeHitGo_congr (F : FOps) (w₁ w₂ : World) (r₁ r₂ : Ray → Color)
    (comps : Computations) (n : Nat) (hobj : w₁.objects = w₂.objects)
    (hl : w₁.light0 = w₂.light0) (hr : r₁ = r₂) :
    shadeHitGo F w₁ r₁ comps n = shadeHitGo F w₂ r₂ comps n := by
  subst hr
  unfold shadeHitGo
  rw [hl]
  simp only [isShadowed_congr F w₁ w₂ hobj hl]

theorem colorAtBody_congr (F : FOps) (w₁ w₂ : World) (r₁ r₂ : Ray → Color)
    (n : Nat) (ray : Ray) (hobj : w₁.objects = w₂.objects)
    (hl : w₁.light0 = w₂.light0) (hr : r₁ = r₂) :
    colorAtBody F w₁ r₁ n ray = colorAtBody F w₂ r₂ n ray := by
  unfold colorAtBody
  rw [intersectWorld_congr F w₁ w₂ hobj]
  cases hh : hitWorld (w₂.intersectWorld F ray) with
  | none => simp only [hh]
  | some i =>
    simp only [hh]
    exact shadeHitGo_congr F w₁ w₂ r₁ r₂ _ n hobj hl hr

theorem colorAt_congr (F : FOps) (w₁ w₂ : World) (hobj : w₁.objects = w₂.objects)
    (hl : w₁.light0 = w₂.light0) : ∀ (n : Nat) (ray : Ray),
    w₁.colorAt F n ray = w₂.colorAt F n ray := by
  intro n
  induction n with
  | zero =>
    intro ray
    exact colorAtBody_congr F w₁ w₂ _ _ 0 ray hobj hl rfl
  | succ n ih =>
    intro ray
    exact colorAtBody_congr F w₁ w₂ _ _ (n + 1) ray hobj hl (funext ih)

/-- C10: `color_at` depends on the light list only through its first
light (`shade_hit` lights against `lights[0]` and `is_shadowed` shadows
toward `lights[0]`), so any lights after the first never affect any
computed color. -/
theorem color_at_first_light_only (F : FOps) (objs : List Object) (l : Light)
    (r₁ r₂ : List Light) (n : Nat) (ray : Ray) :
    World.colorAt F ⟨objs, l :: r₁⟩ n ray = World.colorAt F ⟨objs, l :: r₂⟩ n ray :=
  colorAt_congr F ⟨objs, l :: r₁⟩ ⟨objs, l :: r₂⟩ rfl (by simp [World.light0]) n ray

/-! ## C5 — `Computations::schlick` -/

theorem glassSphere_eq :
    glassSphere =
      { material :=
          { color := black, ambient := 0, diffuse := 0, specular := 9/10,
            shininess := 300, pattern := solidPattern, reflective := 9/10,
            transparency := 9/10, refractiveIndex := 3/2, castsShadow := false },
        transform := Matrix4.identity, invTransform := Matrix4.identity,
        invTransformT := Matrix4.identity, shape := .sphere,
        tlist := TList.default } := rfl

theorem n1n2_c5 : n1n2Go ⟨1, glassSphere⟩ c5xs [] = (3/2, 1) := by
  have hne : (Intersection.peq ⟨-1, glassSphere⟩ ⟨1, glassSphere⟩) = false := by
    simp [Intersection.peq]
    norm_num
  have hri : glassSphere.refractiveIndex = 3/2 := rfl
  simp [c5xs, n1n2Go, hne, Intersection.peq_refl_intersection, processContainers, Object.peq_refl_object,
    containersTopRefr, removeFirstPeq, hri]

theorem prep_c5 (F : FOps) (hF : F.sqrt 1 = 1) :
    prepareComputations F ⟨1, glassSphere⟩ c5ray c5xs =
      { object := glassSphere, tValue := 1, point := point 0 1 0,
        eyev := vector 0 (-1) 0, normalv := vector 0 (-1) 0, inside := true,
        overPoint := ⟨0, 99999/100000, 0, 1⟩,
        underPoint := ⟨0, 100001/100000, 0, 1⟩,
        reflectv := vector 0 (-1) 0, n1 := 3/2, n2 := 1 } := by
  have hpt : c5ray.position 1 = point 0 1 0 := by
    simp [c5ray, Ray.position, origin, point, vector, Tuple.add, Tuple.scale]
  have hnorm : glassSphere.normalAt F (point 0 1 0) = vector 0 1 0 := by
    simp only [Object.normalAt, glassSphere_eq, Matrix4.identity, Matrix4.mulT, dot4,
      spheresNormalAt, Tuple.sub, Tuple.vectorize, Tuple.normalize, Tuple.magnitude,
      Tuple.isVector, point, vector]
    norm_num [hF]
  have hdir : c5ray.direction = vector 0 1 0 := rfl
  have ht : (⟨1, glassSphere⟩ : Intersection).t = 1 := rfl
  have hobj : (⟨1, glassSphere⟩ : Intersection).object = glassSphere := rfl
  simp only [prepareComputations, ht, hobj, hdir, hpt, hnorm, n1n2_c5, Computations.new]
  norm_num [Tuple.neg, Tuple.dot, Tuple.scale, Tuple.add, Tuple.sub,
    Tuple.reflectVector, vector, point, eps, Computations.mk.injEq]

/-- C5: `schlick` returns exactly 1 under total internal reflection
(`n1 > n2` and `sin²θt > 1`); on the perpendicular ray through a glass
sphere (refractive index 1.5) cast from the origin it returns 0.04 up to
1e-5; otherwise it evaluates `R0 + (1 − R0)·(1 − cosθ)⁵` with
`R0 = ((n1 − n2)/(n1 + n2))²`, using the corrected cosine when
`n1 > n2`. -/
theorem schlick_spec :
    (∀ (F : FOps) (c : Computations), c.n1 > c.n2 →
        (c.n1 / c.n2) ^ 2 * (1 - c.eyev.dot c.normalv ^ 2) > 1 →
        c.schlick F = 1) ∧
    (∀ F : FOps, F.sqrt 1 = 1 →
        |(prepareComputations F ⟨1, glassSphere⟩ c5ray c5xs).schlick F - 4/100| ≤
          1/100000) ∧
    (∀ (F : FOps) (c : Computations),
        ¬ (c.n1 > c.n2 ∧ (c.n1 / c.n2) ^ 2 * (1 - c.eyev.dot c.normalv ^ 2) > 1) →
        c.schlick F =
          ((c.n1 - c.n2) / (c.n1 + c.n2)) ^ 2 +
            (1 - ((c.n1 - c.n2) / (c.n1 + c.n2)) ^ 2) *
              (1 - (if c.n1 > c.n2 then
                  F.sqrt (1 - (c.n1 / c.n2) ^ 2 * (1 - c.eyev.dot c.normalv ^ 2))
                else c.eyev.dot c.normalv)) ^ 5) := by
  refine ⟨?_, ?_, ?_⟩
  · intro F c h1 h2
    simp [Computations.schlick, h1, h2]
  · intro F hF
    rw [prep_c5 F hF]
    simp only [Computations.schlick, schlickTail, Tuple.dot, vector]
    norm_num [hF]
  · intro F c h
    by_cases hgt : c.n1 > c.n2
    · have hs : ¬ ((c.n1 / c.n2) ^ 2 * (1 - c.eyev.dot c.normalv ^ 2) > 1) := by
        intro hc
        exact h ⟨hgt, hc⟩
      simp [Computations.schlick, schlickTail, hgt, hs]
    · simp [Computations.schlick, schlickTail, hgt]

/-- Witness for `schlick_spec`: total internal reflection on `tirComps`
gives exactly 1; the concrete glass-sphere reflectance with the test
oracle is within 1e-5 of 0.04; `noTirComps` follows the closed
formula. -/
theorem schlick_spec_witness :
    tirComps.schlick Ftest = 1 ∧
      |(prepareComputations Ftest ⟨1, glassSphere⟩ c5ray c5xs).schlick Ftest - 4/100| ≤
        1/100000 ∧
      noTirComps.schlick Ftest =
        ((noTirComps.n1 - noTirComps.n2) / (noTirComps.n1 + noTirComps.n2)) ^ 2 +
          (1 - ((noTirComps.n1 - noTirComps.n2) / (noTirComps.n1 + noTirComps.n2)) ^ 2) *
            (1 - (if noTirComps.n1 > noTirComps.n2 then
                Ftest.sqrt
                  (1 -
                    (noTirComps.n1 / noTirComps.n2) ^ 2 *
                      (1 - noTirComps.eyev.dot noTirComps.normalv ^ 2))
              else noTirComps.eyev.dot noTirComps.normalv)) ^ 5 := by
  refine ⟨?_, ?_, ?_⟩
  · exact schlick_spec.1 Ftest tirComps (by norm_num [tirComps])
      (by norm_num [tirComps, Tuple.dot, vector])
  · exact schlick_spec.2.1 Ftest (by norm_num [Ftest])
  · exact schlick_spec.2.2 Ftest noTirComps
      (by norm_num [noTirComps, tirComps])

/-! ## C1 — the refraction containers stack of `prepare_computations` -/

theorem prep_n1 (F : FOps) (i : Intersection) (ray : Ray) (xs : List Intersection) :
    (prepareComputations F i ray xs).n1 = (n1n2Go i xs []).1 := rfl

theorem prep_n2 (F : FOps) (i : Intersection) (ray : Ray) (xs : List Intersection) :
    (prepareComputations F i ray xs).n2 = (n1n2Go i xs []).2 := rfl

/-- C1 counterexample: `cexA` (transform set directly) and `cexB` (same
transform reached through the `translate_x` mutator) agree on shape,
material and transform — the equality the claim prescribes — but differ
in the 15-slot parameter list, so the source's full `PartialEq` keeps
both on the stack.  At the hit `c1hit` the source computes `n1 = 3/2`
(top of the stack `[cexA, cexB]`), while the claim's
shape/material/transform stack has already cancelled `cexB` against
`cexA` and is empty, predicting `n1 = 1`. -/
theorem n1_three_field_equality_cex :
    c1xs = c1pre ++ [c1hit] ∧
      List.Sorted (fun a b : Intersection => a.t ≤ b.t) c1xs ∧
      Object.eq3 cexA cexB = true ∧
      (prepareComputations Ftest c1hit c1ray c1xs).n1 = 3/2 ∧
      containersTopRefr (replayContainers Object.eq3 c1pre) = 1 ∧
      (3/2 : ℚ) ≠ 1 := by
  have htl : cexA.tlist = TList.default := rfl
  have heq3 : Object.eq3 cexA cexB = true := by
    simp [Object.eq3, cexB, Material.peq_refl_material, Matrix4.peq_refl_matrix4]
  have hAB : cexA.peq cexB = false := by
    simp [Object.peq, cexB, Material.peq_refl_material, Matrix4.peq_refl_matrix4, htl, TList.default,
      TList.mk.injEq] <;> norm_num
  have hAC : cexA.peq cexC = false := by
    have h1 : cexA.material.refractiveIndex = (3/2 : ℚ) := rfl
    have h2 : cexC.material.refractiveIndex = (1 : ℚ) := rfl
    rw [Bool.eq_false_iff]
    intro h
    have hm : cexA.material.peq cexC.material = true := by
      simp only [Object.peq, Bool.and_eq_true] at h
      exact h.1.1.1.1.1
    have hri : cexA.material.refractiveIndex = cexC.material.refractiveIndex := by
      simp only [Material.peq, Bool.and_eq_true, decide_eq_true_eq] at hm
      exact hm.1.2
    rw [h1, h2] at hri
    norm_num at hri
  have hBC : cexB.peq cexC = false := by
    have h1 : cexB.material.refractiveIndex = (3/2 : ℚ) := rfl
    have h2 : cexC.material.refractiveIndex = (1 : ℚ) := rfl
    rw [Bool.eq_false_iff]
    intro h
    have hm : cexB.material.peq cexC.material = true := by
      simp only [Object.peq, Bool.and_eq_true] at h
      exact h.1.1.1.1.1
    have hri : cexB.material.refractiveIndex = cexC.material.refractiveIndex := by
      simp only [Material.peq, Bool.and_eq_true, decide_eq_true_eq] at hm
      exact hm.1.2
    rw [h1, h2] at hri
    norm_num at hri
  have h13 : (Intersection.peq ⟨1, cexA⟩ ⟨3, cexC⟩) = false := by
    simp [Intersection.peq] <;> norm_num
  have h23 : (Intersection.peq ⟨2, cexB⟩ ⟨3, cexC⟩) = false := by
    simp [Intersection.peq] <;> norm_num
  have hrB : cexB.refractiveIndex = 3/2 := rfl
  refine ⟨rfl, ?_, heq3, ?_, ?_, by norm_num⟩
  · simp [c1xs, c1pre, c1hit, List.sorted_cons] <;> norm_num
  · rw [prep_n1]
    simp [c1xs, c1pre, c1hit, n1n2Go, h13, h23, Intersection.peq_refl_intersection,
      processContainers, hAB, hAC, hBC, containersTopRefr, removeFirstPeq, hrB]
  · simp [replayContainers, c1pre, processContainersBy, heq3, removeFirstBy,
      containersTopRefr]

/-- The body of the `n1`/`n2` loop against the designated decomposition:
when no entry of `pre` compares equal to the hit, the loop's result is
the stack replay of `pre` (top before processing the hit, top after). -/
theorem n1n2Go_spec (hit : Intersection) (post : List Intersection) :
    ∀ (pre : List Intersection) (cs : List Object),
      (∀ j ∈ pre, j.peq hit = false) →
      n1n2Go hit (pre ++ hit :: post) cs =
        (containersTopRefr (pre.foldl (fun a i => processContainers a i.object) cs),
          containersTopRefr
            (processContainers (pre.foldl (fun a i => processContainers a i.object) cs)
              hit.object)) := by
  intro pre
  induction pre with
  | nil =>
    intro cs _
    simp [n1n2Go, Intersection.peq_refl_intersection]
  | cons i pre ih =>
    intro cs hpre
    have hi : i.peq hit = false := hpre i (List.mem_cons_self i pre)
    simp only [List.cons_append, n1n2Go, hi, Bool.false_eq_true, if_false,
      List.append_eq, List.foldl_cons]
    exact ih (processContainers cs i.object) fun j hj => hpre j (List.mem_cons_of_mem i hj)

/-- C1 (amended): for a sorted intersection list containing the
designated hit (with no earlier entry comparing equal to it),
`prepare_computations` computes `n1` as the refractive index of the top
of the containers stack obtained by replaying the entries before the
hit — removing an entry when one compares equal under the source's full
`Object` `PartialEq` (material, transform, cached inverse and
inverse-transpose, shape and the 15-slot transformations list), pushing
otherwise — `1` when that stack is empty, and `n2` likewise after the
hit's own object is processed. -/
theorem prepare_computations_n1n2_containers (F : FOps) (ray : Ray)
    (hit : Intersection) (pre post : List Intersection)
    (hsorted : List.Sorted (fun a b : Intersection => a.t ≤ b.t) (pre ++ hit :: post))
    (hpre : ∀ j ∈ pre, j.peq hit = false) :
    (prepareComputations F hit ray (pre ++ hit :: post)).n1 =
        containersTopRefr (pre.foldl (fun a i => processContainers a i.object) []) ∧
      (prepareComputations F hit ray (pre ++ hit :: post)).n2 =
        containersTopRefr
          (processContainers (pre.foldl (fun a i => processContainers a i.object) [])
            hit.object) := by
  rw [prep_n1, prep_n2, n1n2Go_spec hit post pre [] hpre]
  exact ⟨rfl, rfl⟩

/-- Witness for `prepare_computations_n1n2_containers` at the sorted
list `[⟨1, cexA⟩, ⟨2, cexB⟩]` with hit `⟨2, cexB⟩`. -/
theorem prepare_computations_n1n2_containers_witness :
    (prepareComputations Ftest ⟨2, cexB⟩ c1ray [⟨1, cexA⟩, ⟨2, cexB⟩]).n1 =
        containersTopRefr
          ([⟨1, cexA⟩].foldl (fun a (i : Intersection) => processContainers a i.object) []) ∧
      (prepareComputations Ftest ⟨2, cexB⟩ c1ray [⟨1, cexA⟩, ⟨2, cexB⟩]).n2 =
        containersTopRefr
          (processContainers
            ([⟨1, cexA⟩].foldl (fun a (i : Intersection) => processContainers a i.object) [])
            (⟨2, cexB⟩ : Intersection).object) := by
  have h12 : (Intersection.peq ⟨1, cexA⟩ ⟨2, cexB⟩) = false := by
    simp [Intersection.peq] <;> norm_num
  exact prepare_computations_n1n2_containers Ftest c1ray ⟨2, cexB⟩ [⟨1, cexA⟩] []
    (by simp [List.sorted_cons] <;> norm_num) (by simpa using h12)

/-! ## C7 — group intersection and transform flattening -/

theorem mem_insertByT (a i : Intersection) (l : List Intersection) :
    a ∈ insertByT i l ↔ a = i ∨ a ∈ l := by
  induction l with
  | nil => simp [insertByT]
  | cons j rest ih =>
    by_cases hle : j.t ≤ i.t
    · simp only [insertByT, hle, if_true, List.mem_cons, ih]
      tauto
    · simp only [insertByT, hle, if_false, List.mem_cons]

theorem mem_sortByT (a : Intersection) (l : List Intersection) :
    a ∈ sortByT l ↔ a ∈ l := by
  induction l with
  | nil => simp [sortByT]
  | cons x rest ih =>
    have : sortByT (x :: rest) = insertByT x (sortByT rest) := rfl
    rw [this, mem_insertByT]
    simp [ih]

theorem combineAll_mem (F : FOps) (tl : TList) :
    ∀ (raw out : List Intersection), combineAll F tl raw = some out →
      ∀ i ∈ out, ∃ j ∈ raw, i.t = j.t ∧ j.object.combineTransforms F tl = some i.object := by
  intro raw
  induction raw with
  | nil =>
    intro out hout i hi
    simp [combineAll] at hout
    subst hout
    simp at hi
  | cons r rest ih =>
    intro out hout i hi
    simp only [combineAll] at hout
    cases hr : r.object.combineTransforms F tl with
    | none => rw [hr] at hout; exact absurd hout (by simp)
    | some o =>
      cases hrest : combineAll F tl rest with
      | none => rw [hr, hrest] at hout; exact absurd hout (by simp)
      | some others =>
        rw [hr, hrest] at hout
        simp only [Option.some.injEq] at hout
        subst hout
        rcases List.mem_cons.mp hi with hhead | htail
        · subst hhead
          exact ⟨r, List.mem_cons_self r rest, rfl, hr⟩
        · rcases ih others hrest i htail with ⟨j, hj, hjt, hjc⟩
          exact ⟨j, List.mem_cons_of_mem r hj, hjt, hjc⟩

theorem childrenIntersect_mem (F : FOps) (ray : Ray) :
    ∀ (children : List ObjectHolder) (raw : List Intersection),
      childrenIntersect F children ray = some raw →
      ∀ j ∈ raw, ∃ c ∈ children, ∃ xs, c.intersect F ray = some xs ∧ j ∈ xs := by
  intro children
  induction children with
  | nil =>
    intro raw hraw j hj
    simp [childrenIntersect] at hraw
    subst hraw
    simp at hj
  | cons c rest ih =>
    intro raw hraw j hj
    simp only [childrenIntersect] at hraw
    cases hc : c.intersect F ray with
    | none => rw [hc] at hraw; exact absurd hraw (by simp)
    | some xs =>
      cases hrest : childrenIntersect F rest ray with
      | none => rw [hc, hrest] at hraw; exact absurd hraw (by simp)
      | some ys =>
        rw [hc, hrest] at hraw
        simp only [Option.some.injEq] at hraw
        subst hraw
        rcases List.mem_append.mp hj with hl | hr
        · exact ⟨c, List.mem_cons_self c rest, xs, hc, hl⟩
        · rcases ih ys hrest j hr with ⟨c2, hc2, xs2, hxs2, hj2⟩
          exact ⟨c2, List.mem_cons_of_mem c hc2, xs2, hxs2, hj2⟩

theorem combineTransforms_tlist (F : FOps) (o o' : Object) (tl : TList)
    (h : o.combineTransforms F tl = some o') : o'.tlist = o.tlist.combine tl := by
  simp only [Object.combineTransforms, Object.updateTransform, Object.setTransform] at h
  cases hinv : Matrix4.invert (TList.toMatrix F (TList.combine o.tlist tl)) with
  | none =>
    rw [show ({ o with tlist := o.tlist.combine tl } : Object).tlist.toMatrix F =
      TList.toMatrix F (TList.combine o.tlist tl) from rfl, hinv] at h
    exact absurd h (by simp)
  | some ti =>
    rw [show ({ o with tlist := o.tlist.combine tl } : Object).tlist.toMatrix F =
      TList.toMatrix F (TList.combine o.tlist tl) from rfl, hinv] at h
    simp only [Option.map_some', Option.some.injEq] at h
    subst h
    rfl

/-- Evaluation of the rebuilt transform `T·S·Rx·Ry·Rz·Sh` for a
parameter list without rotation or shear. -/
theorem toMatrix_no_rot (F : FOps) (hc : F.cos 0 = 1) (hs : F.sin 0 = 0)
    (tx ty tz sx sy sz : ℚ) :
    TList.toMatrix F ⟨tx, ty, tz, sx, sy, sz, 0, 0, 0, 0, 0, 0, 0, 0, 0⟩ =
      ⟨sx, 0, 0, tx, 0, sy, 0, ty, 0, 0, sz, tz, 0, 0, 0, 1⟩ := by
  simp only [TList.toMatrix, translation, scaling, rotationX, rotationY, rotationZ,
    shearing, hc, hs, Matrix4.mul, dot4, Matrix4.mk.injEq]
  norm_num

theorem invert_m7 : m7.invert = some m7inv := by
  have hdet : m7.determinant = 8 := by
    simp [m7, Matrix4.determinant, Matrix4.cofactor, Matrix4.minor, det3, det2]
    norm_num
  have hi : m7.isInvertible = true := by
    simp only [Matrix4.isInvertible, hdet, eps]
    norm_num
  have hdet2 : (⟨2, 0, 0, 5, 0, 2, 0, 0, 0, 0, 2, 0, 0, 0, 0, 1⟩ : Matrix4).determinant = 8 :=
    hdet
  simp only [Matrix4.invert, hi]
  norm_num [Matrix4.cofactor, Matrix4.minor, det3, det2, m7, m7inv, hdet, hdet2,
    Matrix4.mk.injEq]

theorem c7_combine (F : FOps) (hc : F.cos 0 = 1) (hs : F.sin 0 = 0) :
    c7sphere.combineTransforms F c7tl = some c7combined := by
  have hcomb : TList.combine c7sphere.tlist c7tl =
      ⟨5, 0, 0, 2, 2, 2, 0, 0, 0, 0, 0, 0, 0, 0, 0⟩ := by
    simp [c7sphere, c7tl, spheresNew, Object.new, TList.default, TList.combine,
      TList.mk.injEq] <;> norm_num
  simp only [Object.combineTransforms, Object.updateTransform, Object.setTransform]
  rw [hcomb, toMatrix_no_rot F hc hs]
  rw [show (⟨2, 0, 0, 5, 0, 2, 0, 0, 0, 0, 2, 0, 0, 0, 0, 1⟩ : Matrix4) = m7 from rfl,
    invert_m7]
  rfl

theorem c7_localray :
    c7ray.transform (scaling (1/2) (1/2) (1/2)) = ⟨point 5 0 (-5), vector 0 0 (1/2)⟩ := by
  simp [c7ray, Ray.transform, scaling, Matrix4.mulT, dot4, point, vector,
    Tuple.isVector, Ray.mk.injEq, Tuple.mk.injEq] <;> norm_num

theorem c7_sphere_intersect (F : FOps) (hsq : F.sqrt 1 = 1) :
    c7sphere.intersect F ⟨point 5 0 (-5), vector 0 0 (1/2)⟩ =
      [⟨8, c7sphere⟩, ⟨12, c7sphere⟩] := by
  have hit : c7sphere.invTransform = translation (-5) 0 0 := rfl
  have hsh : c7sphere.shape = .sphere := rfl
  have hlr2 : Ray.transform ⟨point 5 0 (-5), vector 0 0 (1/2)⟩ (translation (-5) 0 0) =
      ⟨point 0 0 (-5), vector 0 0 (1/2)⟩ := by
    simp [Ray.transform, translation, Matrix4.mulT, dot4, point, vector,
      Tuple.isVector, Ray.mk.injEq, Tuple.mk.injEq] <;> norm_num
  simp only [Object.intersect, hit, hsh, hlr2]
  simp only [spheresIntersect, origin, point, vector, Tuple.sub, Tuple.dot]
  norm_num [hsq, Intersection.mk.injEq]

theorem c7_group_eval (F : FOps) (hsq : F.sqrt 1 = 1) (hc : F.cos 0 = 1)
    (hs : F.sin 0 = 0) :
    ObjectHolder.intersect F c7group c7ray =
      some [⟨8, c7combined⟩, ⟨12, c7combined⟩] := by
  simp only [c7group, ObjectHolder.intersect]
  rw [c7_localray]
  simp only [childrenIntersect, ObjectHolder.intersect]
  rw [c7_sphere_intersect F hsq]
  simp only [List.append_nil, combineAll]
  rw [c7_combine F hc hs]
  simp only [sortByT, List.foldr_cons, List.foldr_nil, insertByT]
  norm_num

/-- C7: every intersection returned by `Group::intersect` carries a
synthetic Object obtained from the child intersection's object by
`combine_transforms` with the group's 15 parameters (translation,
rotation and shear added component-wise, scale multiplied
component-wise, per `TList.combine`); and the ×2-scaled group holding a
sphere translated +5 on x, intersected by the ray from (10, 0, −10)
along +z, yields exactly 2 intersections. -/
theorem group_intersect_combines_transforms :
    (∀ (F : FOps) (children : List ObjectHolder) (t ti tit : Matrix4) (tl : TList)
        (ray : Ray) (out : List Intersection),
      ObjectHolder.intersect F (.grp children t ti tit tl) ray = some out →
      ∀ i ∈ out,
        ∃ c ∈ children, ∃ xs, c.intersect F (ray.transform ti) = some xs ∧
          ∃ j ∈ xs, i.t = j.t ∧ j.object.combineTransforms F tl = some i.object ∧
            i.object.tlist = j.object.tlist.combine tl) ∧
    (∀ F : FOps, F.sqrt 1 = 1 → F.cos 0 = 1 → F.sin 0 = 0 →
      ∃ out, ObjectHolder.intersect F c7group c7ray = some out ∧ out.length = 2) := by
  constructor
  · intro F children t ti tit tl ray out hout i hi
    simp only [ObjectHolder.intersect] at hout
    cases hci : childrenIntersect F children (ray.transform ti) with
    | none => rw [hci] at hout; exact absurd hout (by simp)
    | some raw =>
      rw [hci] at hout
      dsimp only at hout
      cases hca : combineAll F tl raw with
      | none => rw [hca] at hout; exact absurd hout (by simp)
      | some combined =>
        rw [hca] at hout
        dsimp only at hout
        simp only [Option.some.injEq] at hout
        subst hout
        have hic : i ∈ combined := (mem_sortByT i combined).mp hi
        rcases combineAll_mem F tl raw combined hca i hic with ⟨j, hj, hjt, hjc⟩
        rcases childrenIntersect_mem F (ray.transform ti) children raw hci j hj with
          ⟨c, hc, xs, hxs, hjxs⟩
        exact ⟨c, hc, xs, hxs, j, hjxs, hjt, hjc,
          combineTransforms_tlist F j.object i.object tl hjc⟩
  · intro F hsq hc hs
    exact ⟨[⟨8, c7combined⟩, ⟨12, c7combined⟩], c7_group_eval F hsq hc hs, rfl⟩

/-- Witness for `group_intersect_combines_transforms` on the concrete
×2 group with the test oracle. -/
theorem group_intersect_combines_transforms_witness :
    (∃ c ∈ [ObjectHolder.obj c7sphere], ∃ xs,
        c.intersect Ftest (c7ray.transform (scaling (1/2) (1/2) (1/2))) = some xs ∧
          ∃ j ∈ xs, (⟨8, c7combined⟩ : Intersection).t = j.t ∧
            j.object.combineTransforms Ftest c7tl =
                some (⟨8, c7combined⟩ : Intersection).object ∧
              (⟨8, c7combined⟩ : Intersection).object.tlist =
                j.object.tlist.combine c7tl) ∧
      (∃ out, ObjectHolder.intersect Ftest c7group c7ray = some out ∧ out.length = 2) := by
  have hF1 : Ftest.sqrt 1 = 1 := by simp [Ftest]
  have hF2 : Ftest.cos 0 = 1 := by simp [Ftest]
  have hF3 : Ftest.sin 0 = 0 := by simp [Ftest]
  constructor
  · exact group_intersect_combines_transforms.1 Ftest [ObjectHolder.obj c7sphere]
      (scaling 2 2 2) (scaling (1/2) (1/2) (1/2))
      ((scaling (1/2) (1/2) (1/2)).transpose) c7tl c7ray
      [⟨8, c7combined⟩, ⟨12, c7combined⟩] (c7_group_eval Ftest hF1 hF2 hF3)
      ⟨8, c7combined⟩ (by simp)
  · exact group_intersect_combines_transforms.2 Ftest hF1 hF2 hF3

/-! ### Provenance of the concrete fixtures -/

theorem invert_translation1 : (translation 1 0 0).invert = some (translation (-1) 0 0) := by
  have hdet : (translation 1 0 0).determinant = 1 := by
    simp [translation, Matrix4.determinant, Matrix4.cofactor, Matrix4.minor, det3, det2]
  have hi : (translation 1 0 0).isInvertible = true := by
    simp only [Matrix4.isInvertible, hdet, eps]
    norm_num
  have hdet2 : (⟨1, 0, 0, 1, 0, 1, 0, 0, 0, 0, 1, 0, 0, 0, 0, 1⟩ : Matrix4).determinant = 1 :=
    hdet
  simp only [Matrix4.invert, hi]
  norm_num [Matrix4.cofactor, Matrix4.minor, det3, det2, translation, hdet, hdet2,
    Matrix4.mk.injEq]

theorem invert_translation5 : (translation 5 0 0).invert = some (translation (-5) 0 0) := by
  have hdet : (translation 5 0 0).determinant = 1 := by
    simp [translation, Matrix4.determinant, Matrix4.cofactor, Matrix4.minor, det3, det2]
  have hi : (translation 5 0 0).isInvertible = true := by
    simp only [Matrix4.isInvertible, hdet, eps]
    norm_num
  have hdet2 : (⟨1, 0, 0, 5, 0, 1, 0, 0, 0, 0, 1, 0, 0, 0, 0, 1⟩ : Matrix4).determinant = 1 :=
    hdet
  simp only [Matrix4.invert, hi]
  norm_num [Matrix4.cofactor, Matrix4.minor, det3, det2, translation, hdet, hdet2,
    Matrix4.mk.injEq]

/-- `cexA` is exactly what `set_transform(translation(1, 0, 0))` builds
on the refractive sphere. -/
theorem cexA_from_set_transform :
    Object.setTransform sphereRefr15 (translation 1 0 0) = some cexA := by
  simp only [Object.setTransform, invert_translation1, Option.map_some']
  rfl

/-- `cexB` is exactly what the mutator `translate_x(1.0)` builds on the
refractive sphere. -/
theorem cexB_from_translate_x (F : FOps) (hc : F.cos 0 = 1) (hs : F.sin 0 = 0) :
    Object.translateX F sphereRefr15 1 = some cexB := by
  have h1 : ({ sphereRefr15 with
        tlist := { sphereRefr15.tlist with tx := 1 } } : Object).tlist.toMatrix F =
      translation 1 0 0 := by
    rw [show ({ sphereRefr15 with
          tlist := { sphereRefr15.tlist with tx := 1 } } : Object).tlist =
        (⟨1, 0, 0, 1, 1, 1, 0, 0, 0, 0, 0, 0, 0, 0, 0⟩ : TList) from rfl,
      toMatrix_no_rot F hc hs]
    rfl
  unfold Object.translateX Object.updateTransform Object.setTransform
  rw [h1, invert_translation1]
  rfl

/-- `c7sphere` is exactly what the mutator `translate_x(5.0)` builds on
a fresh sphere. -/
theorem c7sphere_from_translate_x (F : FOps) (hc : F.cos 0 = 1) (hs : F.sin 0 = 0) :
    Object.translateX F spheresNew 5 = some c7sphere := by
  have h1 : ({ spheresNew with
        tlist := { spheresNew.tlist with tx := 5 } } : Object).tlist.toMatrix F =
      translation 5 0 0 := by
    rw [show ({ spheresNew with
          tlist := { spheresNew.tlist with tx := 5 } } : Object).tlist =
        (⟨5, 0, 0, 1, 1, 1, 0, 0, 0, 0, 0, 0, 0, 0, 0⟩ : TList) from rfl,
      toMatrix_no_rot F hc hs]
    rfl
  unfold Object.translateX Object.updateTransform Object.setTransform
  rw [h1, invert_translation5]
  rfl

/-- The C7 group record's transform caches are what the
`Group::scale_x/y/z` mutators produce: the rebuilt matrix for `c7tl` is
`scaling(2, 2, 2)` and its cached inverse is `scaling(1/2, 1/2, 1/2)`. -/
theorem c7_group_transform_from_mutators (F : FOps) (hc : F.cos 0 = 1)
    (hs : F.sin 0 = 0) :
    TList.toMatrix F c7tl = scaling 2 2 2 ∧
      (scaling 2 2 2).invert = some (scaling (1/2) (1/2) (1/2)) := by
  constructor
  · rw [show c7tl = (⟨0, 0, 0, 2, 2, 2, 0, 0, 0, 0, 0, 0, 0, 0, 0⟩ : TList) from rfl,
      toMatrix_no_rot F hc hs]
    rfl
  · have hdet : (scaling 2 2 2).determinant = 8 := by
      simp [scaling, Matrix4.determinant, Matrix4.cofactor, Matrix4.minor, det3, det2]
      norm_num
    have hi : (scaling 2 2 2).isInvertible = true := by
      simp only [Matrix4.isInvertible, hdet, eps]
      norm_num
    have hdet2 : (⟨2, 0, 0, 0, 0, 2, 0, 0, 0, 0, 2, 0, 0, 0, 0, 1⟩ : Matrix4).determinant = 8 :=
      hdet
    simp only [Matrix4.invert, hi]
    norm_num [Matrix4.cofactor, Matrix4.minor, det3, det2, scaling, hdet, hdet2,
      Matrix4.mk.injEq]

/-! ## C6 — sequential and parallel rendering -/

theorem foldl_set_length (g : Nat → Color) (b : Nat) :
    ∀ (rs : List Nat) (l : List Color),
      (rs.foldl (fun acc x => acc.set (b + x) (g x)) l).length = l.length := by
  intro rs
  induction rs with
  | nil => intro l; rfl
  | cons x rs ih =>
    intro l
    rw [List.foldl_cons, ih]
    simp

theorem row_foldl_getElem (g : Nat → Color) (b : Nat) :
    ∀ (n : Nat) (l : List Color) (j : Nat),
      ((List.range n).foldl (fun acc x => acc.set (b + x) (g x)) l)[j]? =
        if b ≤ j ∧ j < b + n ∧ j < l.length then some (g (j - b)) else l[j]? := by
  intro n
  induction n with
  | zero =>
    intro l j
    rw [List.range_zero, List.foldl_nil, if_neg]
    omega
  | succ n ih =>
    intro l j
    rw [List.range_succ, List.foldl_append, List.foldl_cons, List.foldl_nil,
      List.getElem?_set]
    rw [foldl_set_length g b]
    by_cases hj : b + n = j
    · rw [if_pos hj, hj]
      by_cases hjl : j < l.length
      · rw [if_pos hjl, if_pos (by omega)]
        congr 1
        congr 1
        omega
      · rw [if_neg hjl, if_neg (by omega), List.getElem?_eq_none (by omega)]
    · rw [if_neg hj, ih]
      by_cases hc : b ≤ j ∧ j < b + n ∧ j < l.length
      · rw [if_pos hc, if_pos (by omega)]
      · rw [if_neg hc, if_neg (by omega)]

theorem grid_foldl_length (g : Nat → Nat → Color) (n : Nat) :
    ∀ (rows : List Nat) (l : List Color),
      (rows.foldl
          (fun acc yy =>
            (List.range n).foldl (fun acc2 xx => acc2.set (yy * n + xx) (g xx yy)) acc)
          l).length = l.length := by
  intro rows
  induction rows with
  | nil => intro l; rfl
  | cons y rows ih =>
    intro l
    rw [List.foldl_cons, ih, foldl_set_length]

theorem grid_foldl_getElem (n : Nat) (g : Nat → Nat → Color) :
    ∀ (m : Nat) (l : List Color) (y x : Nat), x < n → y < m → y * n + x < l.length →
      ((List.range m).foldl
          (fun acc yy =>
            (List.range n).foldl (fun acc2 xx => acc2.set (yy * n + xx) (g xx yy)) acc)
          l)[y * n + x]? = some (g x y) := by
  intro m
  induction m with
  | zero => intro l y x _ hy _; omega
  | succ m ih =>
    intro l y x hx hy hlen
    rw [List.range_succ, List.foldl_append, List.foldl_cons, List.foldl_nil,
      row_foldl_getElem]
    rw [grid_foldl_length]
    by_cases hym : y = m
    · subst hym
      rw [if_pos ⟨Nat.le_add_right _ _, by omega, hlen⟩]
      congr 1
      congr 1
      omega
    · have hlt : y * n + x < m * n := by
        calc y * n + x < y * n + n := by omega
        _ = (y + 1) * n := by ring
        _ ≤ m * n := Nat.mul_le_mul_right n (by omega)
      rw [if_neg (by omega)]
      exact ih l y x hx (by omega) hlen

theorem canvas_row_foldl (y : Nat) (g : Nat → Nat → Color) :
    ∀ (xs : List Nat) (img : Canvas),
      (xs.foldl (fun im xx => im.writePixel xx y (g xx y)) img) =
        ⟨img.width, img.height,
          xs.foldl (fun l xx => l.set (y * img.width + xx) (g xx y)) img.pixels⟩ := by
  intro xs
  induction xs with
  | nil => intro img; rfl
  | cons x xs ih =>
    intro img
    rw [List.foldl_cons, ih, List.foldl_cons]
    rfl

theorem canvas_grid_foldl (g : Nat → Nat → Color) (n : Nat) :
    ∀ (ys : List Nat) (img : Canvas),
      (ys.foldl
          (fun im yy => (List.range n).foldl (fun im2 xx => im2.writePixel xx yy (g xx yy)) im)
          img) =
        ⟨img.width, img.height,
          ys.foldl
            (fun l yy =>
              (List.range n).foldl (fun l2 xx => l2.set (yy * img.width + xx) (g xx yy)) l)
            img.pixels⟩ := by
  intro ys
  induction ys with
  | nil => intro img; rfl
  | cons y ys ih =>
    intro img
    rw [List.foldl_cons, canvas_row_foldl, ih, List.foldl_cons]

/-- The sequential renderer writes exactly
`color_at(ray_for_pixel(x, y), DEFAULT_RECURSION_DEPTH)` at pixel
`(x, y)`. -/
theorem render_pixel (F : FOps) (cam : Camera) (w : World) (x y : Nat)
    (hx : x < cam.hsize) (hy : y < cam.vsize) :
    (cam.render F w).pixelAt x y =
      some (w.colorAt F DEFAULT_RECURSION_DEPTH (cam.rayForPixel F x y)) := by
  unfold Camera.render
  rw [canvas_grid_foldl (fun xx yy => w.colorAt F DEFAULT_RECURSION_DEPTH
    (cam.rayForPixel F xx yy)) cam.hsize (List.range cam.vsize) (Canvas.new cam.hsize cam.vsize)]
  unfold Canvas.pixelAt Canvas.xyTo1d
  have hwidth : (Canvas.new cam.hsize cam.vsize).width = cam.hsize := rfl
  have hpix : (Canvas.new cam.hsize cam.vsize).pixels =
      List.replicate (cam.hsize * cam.vsize) black := rfl
  rw [hwidth, hpix]
  have hlen : y * cam.hsize + x < (List.replicate (cam.hsize * cam.vsize) black).length := by
    rw [List.length_replicate]
    calc y * cam.hsize + x < y * cam.hsize + cam.hsize := by omega
    _ = (y + 1) * cam.hsize := by ring
    _ ≤ cam.vsize * cam.hsize := Nat.mul_le_mul_right cam.hsize (by omega)
    _ = cam.hsize * cam.vsize := Nat.mul_comm _ _
  exact grid_foldl_getElem cam.hsize _ cam.vsize _ y x hx hy hlen

theorem condRow_foldl_length (g : Nat → Color) (b : Nat) :
    ∀ (rs : List Nat) (l : List Color),
      (rs.foldl
          (fun acc x => if b + x < acc.length then acc.set (b + x) (g x) else acc)
          l).length = l.length := by
  intro rs
  induction rs with
  | nil => intro l; rfl
  | cons x rs ih =>
    intro l
    rw [List.foldl_cons]
    by_cases h : b + x < l.length
    · rw [if_pos h, ih]
      simp
    · rw [if_neg h, ih]

theorem condRow_foldl_getElem (g : Nat → Color) (b : Nat) :
    ∀ (n : Nat) (l : List Color) (j : Nat),
      ((List.range n).foldl
          (fun acc x => if b + x < acc.length then acc.set (b + x) (g x) else acc)
          l)[j]? =
        if b ≤ j ∧ j < b + n ∧ j < l.length then some (g (j - b)) else l[j]? := by
  intro n
  induction n with
  | zero =>
    intro l j
    rw [List.range_zero, List.foldl_nil, if_neg]
    omega
  | succ n ih =>
    intro l j
    rw [List.range_succ, List.foldl_append, List.foldl_cons, List.foldl_nil]
    rw [condRow_foldl_length g b]
    by_cases hbl : b + n < l.length
    · rw [if_pos hbl, List.getElem?_set, condRow_foldl_length g b]
      by_cases hj : b + n = j
      · rw [if_pos hj, hj, if_pos (by omega), if_pos (by omega)]
        congr 1
        congr 1
        omega
      · rw [if_neg hj, ih]
        by_cases hc : b ≤ j ∧ j < b + n ∧ j < l.length
        · rw [if_pos hc, if_pos (by omega)]
        · rw [if_neg hc, if_neg (by omega)]
    · rw [if_neg hbl, ih]
      by_cases hc : b ≤ j ∧ j < b + n ∧ j < l.length
      · rw [if_pos hc, if_pos (by omega)]
      · rw [if_neg hc, if_neg (by omega)]

theorem condGrid_foldl_length (n : Nat) (g : Nat → Nat → Color) :
    ∀ (rows : List Nat) (l : List Color),
      (rows.foldl
          (fun acc yy =>
            (List.range n).foldl
              (fun acc2 xx =>
                if yy * n + xx < acc2.length then acc2.set (yy * n + xx) (g xx yy) else acc2)
              acc)
          l).length = l.length := by
  intro rows
  induction rows with
  | nil => intro l; rfl
  | cons y rows ih =>
    intro l
    rw [List.foldl_cons, ih, condRow_foldl_length]

theorem condGrid_foldl_getElem (n : Nat) (g : Nat → Nat → Color) :
    ∀ (m : Nat) (l : List Color) (y x : Nat), x < n → y < m → y * n + x < l.length →
      ((List.range m).foldl
          (fun acc yy =>
            (List.range n).foldl
              (fun acc2 xx =>
                if yy * n + xx < acc2.length then acc2.set (yy * n + xx) (g xx yy) else acc2)
              acc)
          l)[y * n + x]? = some (g x y) := by
  intro m
  induction m with
  | zero => intro l y x _ hy _; omega
  | succ m ih =>
    intro l y x hx hy hlen
    rw [List.range_succ, List.foldl_append, List.foldl_cons, List.foldl_nil,
      condRow_foldl_getElem]
    rw [condGrid_foldl_length]
    by_cases hym : y = m
    · subst hym
      rw [if_pos ⟨Nat.le_add_right _ _, by omega, hlen⟩]
      congr 1
      congr 1
      omega
    · have hlt : y * n + x < m * n := by
        calc y * n + x < y * n + n := by omega
        _ = (y + 1) * n := by ring
        _ ≤ m * n := Nat.mul_le_mul_right n (by omega)
      rw [if_neg (by omega)]
      exact ih l y x hx (by omega) hlen

theorem bandProcess_length (F : FOps) (cam : Camera) (w : World) (i : Nat)
    (band : List Color) : (bandProcess F cam w i band).length = band.length := by
  unfold bandProcess
  exact condGrid_foldl_length cam.hsize _ (List.range BAND_SIZE) band

theorem bandProcess_getElem (F : FOps) (cam : Camera) (w : World) (i : Nat)
    (band : List Color) (row col : Nat) (hcol : col < cam.hsize)
    (hrow : row < BAND_SIZE) (hlt : row * cam.hsize + col < band.length) :
    (bandProcess F cam w i band)[row * cam.hsize + col]? =
      some (w.colorAt F DEFAULT_RECURSION_DEPTH
        (cam.rayForPixel F col (row + i * BAND_SIZE))) := by
  unfold bandProcess
  exact condGrid_foldl_getElem cam.hsize _ BAND_SIZE band row col hcol hrow hlt

theorem chunkify_cons (n : Nat) (l : List Color) (hn : n ≠ 0) (hl : l ≠ []) :
    chunkify n l = l.take n :: chunkify n (l.drop n) := by
  rw [chunkify]
  rw [dif_neg (by simp [hn, hl])]

theorem flatten_bands_getElem (F : FOps) (cam : Camera) (w : World)
    (hh : 0 < cam.hsize) :
    ∀ (N : Nat) (l : List Color) (i0 q row col : Nat), l.length ≤ N →
      col < cam.hsize → row < BAND_SIZE →
      q * (cam.hsize * BAND_SIZE) + row * cam.hsize + col < l.length →
      ((((chunkify (cam.hsize * BAND_SIZE) l).enumFrom i0).map
            fun p => bandProcess F cam w p.1 p.2).flatten)[q * (cam.hsize * BAND_SIZE) +
          row * cam.hsize + col]? =
        some (w.colorAt F DEFAULT_RECURSION_DEPTH
          (cam.rayForPixel F col (row + (i0 + q) * BAND_SIZE))) := by
  intro N
  induction N with
  | zero => intro l i0 q row col hN _ _ hidx; omega
  | succ N ih =>
    intro l i0 q row col hN hcol hrow hidx
    have hB : 0 < BAND_SIZE := by norm_num [BAND_SIZE]
    have hn0 : cam.hsize * BAND_SIZE ≠ 0 := by
      have := Nat.mul_pos hh hB
      omega
    have hl0 : l ≠ [] := by
      intro hemp
      rw [hemp] at hidx
      simp at hidx
    rw [chunkify_cons _ _ hn0 hl0, List.enumFrom_cons, List.map_cons, List.flatten_cons]
    have hbl : (bandProcess F cam w i0 (l.take (cam.hsize * BAND_SIZE))).length =
        min (cam.hsize * BAND_SIZE) l.length := by
      rw [bandProcess_length, List.length_take]
    cases q with
    | zero =>
      have hjn : row * cam.hsize + col < cam.hsize * BAND_SIZE := by
        calc row * cam.hsize + col < row * cam.hsize + cam.hsize := by omega
        _ = (row + 1) * cam.hsize := by ring
        _ ≤ BAND_SIZE * cam.hsize := Nat.mul_le_mul_right _ (by omega)
        _ = cam.hsize * BAND_SIZE := Nat.mul_comm _ _
      simp only [Nat.zero_mul, Nat.zero_add] at hidx ⊢
      rw [List.getElem?_append, if_pos (by rw [hbl]; omega)]
      rw [bandProcess_getElem F cam w i0 _ row col hcol hrow
        (by rw [List.length_take]; omega)]
      simp
    | succ q' =>
      set n := cam.hsize * BAND_SIZE with hn
      have hsucc : (q' + 1) * n = q' * n + n := by ring
      have hlarge : n < l.length := by omega
      have hmin : min n l.length = n := by omega
      rw [List.getElem?_append_right (by rw [hbl, hmin]; omega)]
      rw [hbl, hmin]
      have hsub : (q' + 1) * n + row * cam.hsize + col - n =
          q' * n + row * cam.hsize + col := by omega
      rw [hsub]
      have hdrop : (l.drop n).length = l.length - n := List.length_drop _ _
      rw [ih (l.drop n) (i0 + 1) q' row col (by omega) hcol hrow (by rw [hdrop]; omega)]
      rw [show i0 + 1 + q' = i0 + (q' + 1) from by omega]

/-- The parallel renderer writes exactly
`color_at(ray_for_pixel(x, y), DEFAULT_RECURSION_DEPTH)` at pixel
`(x, y)`, independent of the band partition. -/
theorem parallelRender_pixel (F : FOps) (cam : Camera) (w : World) (x y : Nat)
    (hx : x < cam.hsize) (hy : y < cam.vsize) :
    (cam.parallelRender F w).pixelAt x y =
      some (w.colorAt F DEFAULT_RECURSION_DEPTH (cam.rayForPixel F x y)) := by
  unfold Camera.parallelRender Canvas.pixelAt Canvas.xyTo1d
  dsimp only
  have hB : 0 < BAND_SIZE := by norm_num [BAND_SIZE]
  have hq : y = BAND_SIZE * (y / BAND_SIZE) + y % BAND_SIZE := (Nat.div_add_mod y BAND_SIZE).symm
  have hrow : y % BAND_SIZE < BAND_SIZE := Nat.mod_lt y hB
  have hidx : y * cam.hsize + x =
      (y / BAND_SIZE) * (cam.hsize * BAND_SIZE) + (y % BAND_SIZE) * cam.hsize + x := by
    conv_lhs => rw [hq]
    ring
  have hbound : y * cam.hsize + x < cam.hsize * cam.vsize := by
    calc y * cam.hsize + x < y * cam.hsize + cam.hsize := by omega
    _ = (y + 1) * cam.hsize := by ring
    _ ≤ cam.vsize * cam.hsize := Nat.mul_le_mul_right cam.hsize (by omega)
    _ = cam.hsize * cam.vsize := Nat.mul_comm _ _
  have henum : (chunkify (cam.hsize * BAND_SIZE)
      (List.replicate (cam.hsize * cam.vsize) black)).enum =
      List.enumFrom 0 (chunkify (cam.hsize * BAND_SIZE)
        (List.replicate (cam.hsize * cam.vsize) black)) := rfl
  rw [hidx, henum]
  have hres := flatten_bands_getElem F cam w (by omega) (cam.hsize * cam.vsize)
    (List.replicate (cam.hsize * cam.vsize) black) 0 (y / BAND_SIZE) (y % BAND_SIZE) x
    (by rw [List.length_replicate]) hx hrow
    (by rw [List.length_replicate]; rw [← hidx]; exact hbound)
  rw [hres]
  have hdm : y / BAND_SIZE * BAND_SIZE + y % BAND_SIZE = y := by
    rw [Nat.mul_comm]
    exact Nat.div_add_mod y BAND_SIZE
  simp only [Nat.zero_add]
  rw [show y % BAND_SIZE + y / BAND_SIZE * BAND_SIZE = y from by omega]

/-- C6: the sequential and parallel renderers are pixel-identical: for
every in-range pixel `(x, y)` both produce exactly
`color_at(ray_for_pixel(x, y), DEFAULT_RECURSION_DEPTH)`, independent of
the band partitioning (the progress counter never touches the
pixels). -/
theorem render_parallel_render_pixel_identical (F : FOps) (cam : Camera) (w : World)
    (x y : Nat) (hx : x < cam.hsize) (hy : y < cam.vsize) :
    (cam.render F w).pixelAt x y =
        some (w.colorAt F DEFAULT_RECURSION_DEPTH (cam.rayForPixel F x y)) ∧
      (cam.parallelRender F w).pixelAt x y =
        some (w.colorAt F DEFAULT_RECURSION_DEPTH (cam.rayForPixel F x y)) ∧
      (cam.render F w).pixelAt x y = (cam.parallelRender F w).pixelAt x y := by
  have h1 := render_pixel F cam w x y hx hy
  have h2 := parallelRender_pixel F cam w x y hx hy
  exact ⟨h1, h2, by rw [h1, h2]⟩

/-- Witness for `render_parallel_render_pixel_identical` on a 1×1
camera over the empty one-light world. -/
theorem render_parallel_render_pixel_identical_witness :
    (camW.render Ftest emptyW1).pixelAt 0 0 =
        some (emptyW1.colorAt Ftest DEFAULT_RECURSION_DEPTH (camW.rayForPixel Ftest 0 0)) ∧
      (camW.parallelRender Ftest emptyW1).pixelAt 0 0 =
        some (emptyW1.colorAt Ftest DEFAULT_RECURSION_DEPTH (camW.rayForPixel Ftest 0 0)) ∧
      (camW.render Ftest emptyW1).pixelAt 0 0 = (camW.parallelRender Ftest emptyW1).pixelAt 0 0 :=
  render_parallel_render_pixel_identical Ftest camW emptyW1 0 0 (by norm_num [camW])
    (by norm_num [camW])

end RayTracer
